import Mathlib

/-!
ParamTest: a shallow embedding of `main.cpp`.

The program is a small reflective parameter framework:

* `Variant`: a tagged value holding an `int`, a `double` or a `std::string`;
* `Param<T>`: a named value of type `T` guarded by a validator;
* `Object`: owns three parameters and a `std::map` from names to them.

Conventions of the embedding.

* A member function that can throw returns the pair of its outcome
  (`Except Failure α`) and the state of the receiver when control leaves it, so
  that "the state is unchanged when the call fails" is a statement to be proved
  and not a consequence of the types.  `const` member functions return their
  outcome only.
* `int` is `Int` (the program only stores and compares ints, it never does
  arithmetic on them); `std::string` is `String`, one `Char` per C++ `char`,
  `length()` is `String.length`, and `operator<` is the lexicographic order of
  the character sequences; `double` is the IEEE-754 binary64 bit pattern with
  the IEEE comparison.
-/

namespace ParamTest

/-! Section: Outcomes -/

/-- The ways a call can fail: the two exception classes the program throws, each
with its `what()` text, and the reading of an inactive member of the anonymous
union inside `Variant`, which C++ leaves undefined. -/
inductive Failure where
  | runtime_error (what : String)
  | range_error (what : String)
  | undefined
deriving DecidableEq, Repr

/-! Section: `double` -/

/-- An IEEE-754 binary64 value: the sign bit and the remaining 63 bits (biased
exponent and fraction) read as a number. -/
structure Double where
  sign : Bool
  mag : Fin (2 ^ 63)
deriving DecidableEq

namespace Double

/-- The exponent field is all ones and the fraction is not zero. -/
def isNaN (x : Double) : Bool := decide (0x7FF0000000000000 < x.mag.val)

/-- Sign-magnitude reading of the bits: monotone in the value of every double
that is not a NaN, and both zeros are sent to 0. -/
def key (x : Double) : Int := if x.sign then -(x.mag.val : Int) else (x.mag.val : Int)

/-- IEEE `x <= y`: false as soon as one side is a NaN. -/
def le (x y : Double) : Bool := !x.isNaN && !y.isNaN && decide (x.key ≤ y.key)

instance : LE Double := ⟨fun x y => le x y = true⟩

instance : DecidableRel (α := Double) (· ≤ ·) := fun x y => decEq (le x y) true

/-- The literal `0.0`. -/
def zero : Double := ⟨false, ⟨0, by decide⟩⟩

/-- The value `10.0` = 1.25 * 2^3 (what the `int` literal `10` converts to). -/
def ten : Double := ⟨false, ⟨0x4024000000000000, by decide⟩⟩

/-- The literal `-10.0`. -/
def negTen : Double := ⟨true, ⟨0x4024000000000000, by decide⟩⟩

end Double

/-! Section: Validators (lines 8-17) -/

/-- Function `checkMinMax(min, max)`: the closure `value >= min && value <= max`
(`value >= min` is `min <= value`, for `int` and for IEEE doubles alike). -/
def checkMinMax {T : Type} [LE T] [DecidableRel (α := T) (· ≤ ·)] (min max : T) : T → Bool :=
  fun value => decide (value ≥ min) && decide (value ≤ max)

/-- Function `checkMaxLength(maxLen)`: the closure `s.length() <= maxLen`. -/
def checkMaxLength (maxLen : Nat) : String → Bool :=
  fun s => decide (s.length ≤ maxLen)

/-! Section: `Variant` (lines 19-82) -/

/-- The enumeration `Variant::type`. -/
inductive Variant.type where
  | INT
  | DOUBLE
  | STRING
deriving DecidableEq, Repr

/-- The anonymous `union { int _i; double _d; }`: which member was written last,
if any. -/
inductive Variant.Union where
  | indeterminate
  | _i (i : Int)
  | _d (d : Double)
deriving DecidableEq

/-- The three data members of `class Variant`. -/
structure Variant where
  _type : Variant.type
  _u : Variant.Union
  _s : String
deriving DecidableEq

namespace Variant

/-- Constructor `Variant(int i)`: the string member is default-constructed. -/
def ofInt (i : Int) : Variant := ⟨type.INT, Union._i i, ""⟩

/-- Constructor `Variant(double d)`. -/
def ofDouble (d : Double) : Variant := ⟨type.DOUBLE, Union._d d, ""⟩

/-- Constructor `Variant(const string& s)`: the union is left uninitialised. -/
def ofString (s : String) : Variant := ⟨type.STRING, Union.indeterminate, s⟩

/-- Constructor `Variant(const char* s)`, `s` being the characters before the terminator. -/
def ofCStr (s : String) : Variant := ⟨type.STRING, Union.indeterminate, s⟩

/-- Assignment `Variant& operator=(int i)`: `_s` keeps whatever it held. -/
def assignInt (w : Variant) (i : Int) : Variant :=
  { w with _type := type.INT, _u := Union._i i }

/-- Assignment `Variant& operator=(double d)`. -/
def assignDouble (w : Variant) (d : Double) : Variant :=
  { w with _type := type.DOUBLE, _u := Union._d d }

/-- Assignment `Variant& operator=(const string& s)`: the union keeps whatever it held. -/
def assignString (w : Variant) (s : String) : Variant :=
  { w with _type := type.STRING, _s := s }

/-- Conversion `operator int() const`. -/
def toInt (v : Variant) : Except Failure Int :=
  if v._type ≠ type.INT then Except.error (Failure.runtime_error "Not an int")
  else match v._u with
    | Union._i i => Except.ok i
    | _ => Except.error Failure.undefined

/-- Conversion `operator double() const`. -/
def toDouble (v : Variant) : Except Failure Double :=
  if v._type ≠ type.DOUBLE then Except.error (Failure.runtime_error "Not a double")
  else match v._u with
    | Union._d d => Except.ok d
    | _ => Except.error Failure.undefined

/-- Conversion `operator string() const`. -/
def toString (v : Variant) : Except Failure String :=
  if v._type ≠ type.STRING then Except.error (Failure.runtime_error "Not a string")
  else Except.ok v._s

end Variant

/-- The types `T` at which `Param<T>` is instantiated.  `ofValue` is the
constructor that overload resolution selects for `Variant(*this)` (through
`operator T`, whose result needs no further conversion for it), `convert` the
conversion function selected for binding `const T&` in `*this = v`, and `tag`
the tag `ofValue` sets. -/
class VariantValue (T : Type) where
  tag : Variant.type
  ofValue : T → Variant
  convert : Variant → Except Failure T

instance : VariantValue Int := ⟨Variant.type.INT, Variant.ofInt, Variant.toInt⟩

instance : VariantValue Double := ⟨Variant.type.DOUBLE, Variant.ofDouble, Variant.toDouble⟩

instance : VariantValue String := ⟨Variant.type.STRING, Variant.ofString, Variant.toString⟩

/-- The C++ type stored under each tag. -/
abbrev Variant.type.T : Variant.type → Type
  | Variant.type.INT => Int
  | Variant.type.DOUBLE => Double
  | Variant.type.STRING => String

instance (k : Variant.type) : VariantValue k.T :=
  match k with
  | Variant.type.INT => inferInstanceAs (VariantValue Int)
  | Variant.type.DOUBLE => inferInstanceAs (VariantValue Double)
  | Variant.type.STRING => inferInstanceAs (VariantValue String)

/-- The `runtime_error` thrown by the conversion operator to the type of tag `k`. -/
def Variant.type.notA : Variant.type → Failure
  | Variant.type.INT => Failure.runtime_error "Not an int"
  | Variant.type.DOUBLE => Failure.runtime_error "Not a double"
  | Variant.type.STRING => Failure.runtime_error "Not a string"

/-! Section: `GenericParam` and `Param<T>` (lines 86-132, 193-206) -/

/-- Base `class GenericParam`: the name given at construction. -/
structure GenericParam where
  _name : String

/-- Accessor `const string& getName() const`. -/
def GenericParam.getName (g : GenericParam) : String := g._name

/-- Template `class Param<T>`.  Its own private `_name` (line 129) is never initialised by
a constructor nor read, and is left out. -/
structure Param (T : Type) extends GenericParam where
  _value : T
  _validator : T → Bool

namespace Param

variable {T : Type}

/-- The member initialisers of `Param(parent, name, initialValue, validator)`
(lines 194-196).  The body, `if (parent) parent->registerParam(this)`, acts on
the parent and is carried out where the parent is constructed
(`Object.ctor`); with a null parent this is the whole constructor. -/
def ctor (name : String) (initialValue : T) (validator : T → Bool) : Param T :=
  { _name := name, _value := initialValue, _validator := validator }

/-- Constructor `Param(parent, name, initialValue, min, max)`: delegates with
`checkMinMax(min, max)`. -/
def ctorMinMax [LE T] [DecidableRel (α := T) (· ≤ ·)]
    (name : String) (initialValue min max : T) : Param T :=
  ctor name initialValue (checkMinMax min max)

/-- Accessor `T getValue() const`. -/
def getValue (p : Param T) : T := p._value

/-- Conversion `operator T() const`. -/
def toT (p : Param T) : T := p._value

/-- Assignment `T& operator=(const T& other)`: the outcome carries the value the returned
reference designates. -/
def assign (p : Param T) (other : T) : Except Failure T × Param T :=
  if !p._validator other then
    (Except.error (Failure.range_error "Value not valid!"), p)
  else
    (Except.ok other, { p with _value := other })

/-- Override `virtual Variant getAsVariant() const {return Variant(*this);}`. -/
def getAsVariant [VariantValue T] (p : Param T) : Variant :=
  VariantValue.ofValue p.toT

/-- Override `virtual void setFromVariant(const Variant& v) {*this = v;}`: `v` is first
converted to `T`, then assigned. -/
def setFromVariant [VariantValue T] (p : Param T) (v : Variant) : Except Failure Unit × Param T :=
  match (VariantValue.convert v : Except Failure T) with
  | Except.error e => (Except.error e, p)
  | Except.ok other =>
    match p.assign other with
    | (Except.error e, p') => (Except.error e, p')
    | (Except.ok _, p') => (Except.ok (), p')

/-- A call made on a `Param<T>` by its user. -/
inductive Call (T : Type) where
  | assign (other : T)
  | setFromVariant (v : Variant)

/-- The state of the field after one call, whether it returned or threw. -/
def step [VariantValue T] (p : Param T) : Call T → Param T
  | Call.assign other => (p.assign other).2
  | Call.setFromVariant v => (p.setFromVariant v).2

/-- The state of the field after a sequence of calls, each exception being
caught by the caller. -/
def run [VariantValue T] (p : Param T) (calls : List (Call T)) : Param T :=
  calls.foldl step p

end Param

/-! Section: `std::map<string, P>` (the container behind `Object::params`) -/

/-- The entries of a `std::map<string, P>`, listed in iteration order.  The
container keeps them in strictly ascending order of the keys (`StdMap.WF`). -/
abbrev StdMap (P : Type) := List (String × P)

namespace StdMap

variable {P : Type}

/-- The invariant of the container: along the iteration the keys ascend
strictly for `operator<` of `std::string`. -/
def WF (m : StdMap P) : Prop := m.Pairwise (fun a b => a.1.data < b.1.data)

/-- Lookup `m.find(name)`: the mapped value of the entry whose key is equivalent
to `name` (neither is less than the other), `none` standing for `m.end()`. -/
def find : StdMap P → String → Option P
  | [], _ => none
  | (k, q) :: rest, name =>
    if ¬ k.data < name.data ∧ ¬ name.data < k.data then some q else find rest name

/-- Statement `m[name] = p`: `operator[]` inserts an entry for `name` at its
place in the order when there is none, and the mapped value is overwritten. -/
def set : StdMap P → String → P → StdMap P
  | [], name, p => [(name, p)]
  | (k, q) :: rest, name, p =>
    if name.data < k.data then (name, p) :: (k, q) :: rest
    else if k.data < name.data then (k, q) :: set rest name p
    else (k, p) :: rest

/-- The keys met by `for (auto p : m)`, each being `p.first`. -/
def keys (m : StdMap P) : List String := m.map (fun p => p.1)

end StdMap

/-! Section: `Object` (lines 134-191) -/

/-- The `GenericParam*` values an `Object` stores in its map: the addresses of
its own members `i`, `d` and `s`. -/
inductive Object.Member where
  | i
  | d
  | s
deriving DecidableEq, Repr

/-- The data members of `class Object`, in declaration order. -/
structure Object where
  params : StdMap Object.Member
  i : Param Int
  d : Param Double
  s : Param String

namespace Object

/-- Method `void registerParam(GenericParam* p)`, acting on the map; `pName` is
what `p->getName()` reads through the pointer. -/
def registerParam {P : Type} (params : StdMap P) (p : P) (pName : String) :
    Except Failure Unit × StdMap P :=
  match params.find pName with
  | some _ => (Except.error (Failure.runtime_error "Name already used!"), params)
  | none => (Except.ok (), params.set pName p)

/-- A run of `registerParam` calls on the map, one per pointer of `ps` in order
(the fields of an object register themselves in declaration order); the first
exception ends the run.  `getName p` is what `p->getName()` reads. -/
def registerAll {P : Type} (getName : P → String) :
    StdMap P → List P → Except Failure Unit × StdMap P
  | params, [] => (Except.ok (), params)
  | params, p :: ps =>
    match registerParam params p (getName p) with
    | (Except.error e, params) => (Except.error e, params)
    | (Except.ok _, params) => registerAll getName params ps

/-- Constructor `Object()`: `params` is default-constructed first, then `i`, `d`
and `s` are constructed in this order, each one registering itself in the body
of its constructor (the parent is `this`, never null).  An exception leaving a
member's constructor leaves `Object()`. -/
def ctor : Except Failure Object :=
  let params : StdMap Member := []
  let i : Param Int := Param.ctorMinMax "myInt" 0 (-10) 10
  match registerParam params Member.i i.getName with
  | (Except.error e, _) => Except.error e
  | (Except.ok _, params) =>
    let d : Param Double := Param.ctorMinMax "myDouble" Double.zero Double.negTen Double.ten
    match registerParam params Member.d d.getName with
    | (Except.error e, _) => Except.error e
    | (Except.ok _, params) =>
      let s : Param String := Param.ctor "myString" "string" (fun v => decide (v.length ≤ 20))
      match registerParam params Member.s s.getName with
      | (Except.error e, _) => Except.error e
      | (Except.ok _, params) => Except.ok { params := params, i := i, d := d, s := s }

/-- Method `void listParams() const`: the lines written to `cout`. -/
def listParams (o : Object) : List String := o.params.keys

/-- The virtual call `p->setFromVariant(value)` through a stored pointer. -/
def setFromVariant (o : Object) : Member → Variant → Except Failure Unit × Object
  | Member.i, v => ((o.i.setFromVariant v).1, { o with i := (o.i.setFromVariant v).2 })
  | Member.d, v => ((o.d.setFromVariant v).1, { o with d := (o.d.setFromVariant v).2 })
  | Member.s, v => ((o.s.setFromVariant v).1, { o with s := (o.s.setFromVariant v).2 })

/-- The virtual call `p->getAsVariant()` through a stored pointer. -/
def getAsVariant (o : Object) : Member → Variant
  | Member.i => o.i.getAsVariant
  | Member.d => o.d.getAsVariant
  | Member.s => o.s.getAsVariant

/-- The call `p->getName()` through a stored pointer. -/
def getName (o : Object) : Member → String
  | Member.i => o.i.getName
  | Member.d => o.d.getName
  | Member.s => o.s.getName

/-- Method `void setParam(const string& name, Variant value)`. -/
def setParam (o : Object) (name : String) (value : Variant) : Except Failure Unit × Object :=
  match o.params.find name with
  | none => (Except.error (Failure.runtime_error "Param not found!"), o)
  | some p => o.setFromVariant p value

/-- Method `Variant getParam(const string& name)` (not declared `const`). -/
def getParam (o : Object) (name : String) : Except Failure Variant × Object :=
  match o.params.find name with
  | none => (Except.error (Failure.runtime_error "Param not found!"), o)
  | some p => (Except.ok (o.getAsVariant p), o)

/-- Method `void zero()`: three typed assignments in sequence, the first
exception ending the call. -/
def zero (o : Object) : Except Failure Unit × Object :=
  match o.i.assign 0 with
  | (Except.error e, i) => (Except.error e, { o with i := i })
  | (Except.ok _, i) =>
    match o.d.assign Double.zero with
    | (Except.error e, d) => (Except.error e, { o with i := i, d := d })
    | (Except.ok _, d) =>
      match o.s.assign "zero" with
      | (Except.error e, s) => (Except.error e, { o with i := i, d := d, s := s })
      | (Except.ok _, s) => (Except.ok (), { o with i := i, d := d, s := s })

/-- A call made on an `Object` by its user. -/
inductive Call where
  | setParam (name : String) (value : Variant)
  | getParam (name : String)
  | zero

/-- The state of the object after one call, whether it returned or threw. -/
def step (o : Object) : Call → Object
  | Call.setParam name value => (o.setParam name value).2
  | Call.getParam name => (o.getParam name).2
  | Call.zero => o.zero.2

/-- The states an `Object` can be in: the one `Object()` builds, and those any
sequence of `setParam`, `getParam` and `zero` calls leads to from it. -/
inductive Reachable : Object → Prop where
  | init {o : Object} : ctor = Except.ok o → Reachable o
  | step {o : Object} (c : Call) : Reachable o → Reachable (o.step c)

end Object

/-! Section: what the claims about `Object` speak of -/

namespace Object

/-- The state in which `Object()` leaves the new object (`ctor_eq_fresh`): the
three members with their declared names, initial values and validators, and
the three map entries in the order `std::map` iterates them. -/
def fresh : Object :=
  { params := [("myDouble", Member.d), ("myInt", Member.i), ("myString", Member.s)]
    i := Param.ctorMinMax "myInt" 0 (-10) 10
    d := Param.ctorMinMax "myDouble" Double.zero Double.negTen Double.ten
    s := Param.ctor "myString" "string" (fun v => decide (v.length ≤ 20)) }

/-- What construction fixes: the map binds the three names to the three members,
and each member has its declared name and validator. -/
structure Declared (o : Object) : Prop where
  params : o.params = [("myDouble", Member.d), ("myInt", Member.i), ("myString", Member.s)]
  i_name : o.i.getName = "myInt"
  d_name : o.d.getName = "myDouble"
  s_name : o.s.getName = "myString"
  i_validator : o.i._validator = checkMinMax (-10) 10
  d_validator : o.d._validator = checkMinMax Double.negTen Double.ten
  s_validator : o.s._validator = fun v => decide (v.length ≤ 20)

end Object

/-! Section: theorems about `Variant` and `Param<T>` -/

/-- A conversion to the type of tag `k` throws the mismatch error of `k` on every
`Variant` whose tag is not `k`, whatever its other members hold. -/
theorem convert_of_tag_ne (k : Variant.type) (v : Variant) (h : v._type ≠ k) :
    (VariantValue.convert v : Except Failure k.T) = Except.error k.notA := by
  cases k <;>
    simp [VariantValue.convert, Variant.toInt, Variant.toDouble, Variant.toString,
      Variant.type.notA, h]

/-- Converting the `Variant` built from `x` back to the type of `x` returns `x`. -/
theorem convert_ofValue (k : Variant.type) (x : k.T) :
    (VariantValue.convert (VariantValue.ofValue x) : Except Failure k.T) = Except.ok x := by
  cases k <;>
    simp [VariantValue.convert, VariantValue.ofValue, Variant.toInt, Variant.toDouble,
      Variant.toString, Variant.ofInt, Variant.ofDouble, Variant.ofString]

/-- C1: a `Variant` constructed from an `int`, a `double` or a string converts
back to that type with exactly the value it was built from, and each conversion
to one of the two other types throws that type's mismatch `runtime_error`
("Not an int", "Not a double", "Not a string"); so an INT-tagged value is not
readable as a double and the STRING-tagged "123" (built from a `std::string` or
from a literal) is readable neither as an int nor as a double.  The conversion
operators are `const` and are functions of the `Variant` alone: there is no
post-state for them to change. -/
theorem Variant.convert_constructed (i : Int) (d : Double) (s : String) :
    ((Variant.ofInt i).toInt = Except.ok i
      ∧ (Variant.ofInt i).toDouble = Except.error (Failure.runtime_error "Not a double")
      ∧ (Variant.ofInt i).toString = Except.error (Failure.runtime_error "Not a string"))
    ∧ ((Variant.ofDouble d).toInt = Except.error (Failure.runtime_error "Not an int")
      ∧ (Variant.ofDouble d).toDouble = Except.ok d
      ∧ (Variant.ofDouble d).toString = Except.error (Failure.runtime_error "Not a string"))
    ∧ ((Variant.ofString s).toInt = Except.error (Failure.runtime_error "Not an int")
      ∧ (Variant.ofString s).toDouble = Except.error (Failure.runtime_error "Not a double")
      ∧ (Variant.ofString s).toString = Except.ok s)
    ∧ ((Variant.ofCStr s).toInt = Except.error (Failure.runtime_error "Not an int")
      ∧ (Variant.ofCStr s).toDouble = Except.error (Failure.runtime_error "Not a double")
      ∧ (Variant.ofCStr s).toString = Except.ok s)
    ∧ ((Variant.ofCStr "123").toInt = Except.error (Failure.runtime_error "Not an int")
      ∧ (Variant.ofCStr "123").toDouble = Except.error (Failure.runtime_error "Not a double")) := by
  simp [Variant.toInt, Variant.toDouble, Variant.toString, Variant.ofInt, Variant.ofDouble,
    Variant.ofString, Variant.ofCStr]

/-- C2: the typed assignment `p = v` of a `Param<T>`.  When the validator rejects
`v` it throws `range_error("Value not valid!")` and the field is exactly as it
was, so `getValue()` still returns the earlier value; when the validator accepts
`v` it returns, `getValue()` then returns `v`, and name and validator are
untouched. -/
theorem Param.assign_checks_validator {T : Type} (p : Param T) (v : T) :
    (p._validator v = false →
        (p.assign v).1 = Except.error (Failure.range_error "Value not valid!")
        ∧ (p.assign v).2 = p
        ∧ (p.assign v).2.getValue = p.getValue)
    ∧ (p._validator v = true →
        (p.assign v).1 = Except.ok v
        ∧ (p.assign v).2.getValue = v
        ∧ (p.assign v).2._validator = p._validator
        ∧ (p.assign v).2.getName = p.getName) := by
  constructor
  · intro h
    simp [Param.assign, h]
  · intro h
    simp [Param.assign, h, Param.getValue, GenericParam.getName]

/-- C2, at the field `myInt` of the program (range [-10, 10], holding 0):
assigning 11 throws and leaves 0, assigning 5 returns and leaves 5. -/
theorem Param.assign_checks_validator_witness :
    ((((Param.ctorMinMax "myInt" 0 (-10) 10 : Param Int).assign 11).1
          = Except.error (Failure.range_error "Value not valid!")
        ∧ ((Param.ctorMinMax "myInt" 0 (-10) 10 : Param Int).assign 11).2
          = (Param.ctorMinMax "myInt" 0 (-10) 10 : Param Int)
        ∧ ((Param.ctorMinMax "myInt" 0 (-10) 10 : Param Int).assign 11).2.getValue
          = (Param.ctorMinMax "myInt" 0 (-10) 10 : Param Int).getValue)
      ∧ ((Param.ctorMinMax "myInt" 0 (-10) 10 : Param Int).assign 5).2.getValue = 5) :=
  ⟨(Param.assign_checks_validator (Param.ctorMinMax "myInt" 0 (-10) 10 : Param Int) 11).1
      (by decide),
    ((Param.assign_checks_validator (Param.ctorMinMax "myInt" 0 (-10) 10 : Param Int) 5).2
      (by decide)).2.1⟩

/-- The typed assignment never touches the validator. -/
theorem Param.assign_validator {T : Type} (p : Param T) (v : T) :
    (p.assign v).2._validator = p._validator := by
  unfold Param.assign
  split <;> rfl

/-- The typed assignment never touches the name. -/
theorem Param.assign_name {T : Type} (p : Param T) (v : T) :
    (p.assign v).2.getName = p.getName := by
  unfold Param.assign
  split <;> rfl

/-- The value after a typed assignment is the assigned one when the validator
accepts it and the earlier one when it does not. -/
theorem Param.assign_value {T : Type} (p : Param T) (v : T) :
    (p.assign v).2._value = if p._validator v then v else p._value := by
  unfold Param.assign
  cases h : p._validator v <;> simp

/-- The post-state of `setFromVariant` in terms of the conversion and of the
typed assignment. -/
theorem Param.setFromVariant_state {T : Type} [VariantValue T] (p : Param T) (v : Variant) :
    (p.setFromVariant v).2 =
      match (VariantValue.convert v : Except Failure T) with
      | Except.error _ => p
      | Except.ok other => (p.assign other).2 := by
  unfold Param.setFromVariant
  cases hc : (VariantValue.convert v : Except Failure T) with
  | error e => rfl
  | ok other =>
    simp only
    rcases hr : p.assign other with ⟨r, p'⟩
    cases r <;> rfl

/-- The import never touches the validator. -/
theorem Param.setFromVariant_validator {T : Type} [VariantValue T] (p : Param T) (v : Variant) :
    (p.setFromVariant v).2._validator = p._validator := by
  rw [Param.setFromVariant_state]
  split
  · rfl
  · exact Param.assign_validator p _

/-- The import never touches the name. -/
theorem Param.setFromVariant_name {T : Type} [VariantValue T] (p : Param T) (v : Variant) :
    (p.setFromVariant v).2.getName = p.getName := by
  rw [Param.setFromVariant_state]
  split
  · rfl
  · exact Param.assign_name p _

/-- One call on a field keeps the validator, and keeps the held value accepted
by it when it was. -/
theorem Param.step_keeps {T : Type} [VariantValue T] (p : Param T) (c : Param.Call T) :
    (p.step c)._validator = p._validator
    ∧ (p._validator p._value = true → (p.step c)._validator (p.step c)._value = true) := by
  have key : ∀ x : T, (p.assign x).2._validator (p.assign x).2._value = true
      ∨ (p.assign x).2 = p := by
    intro x
    unfold Param.assign
    cases h : p._validator x <;> simp [h]
  cases c with
  | assign other =>
    refine ⟨Param.assign_validator p other, fun hp => ?_⟩
    show (p.assign other).2._validator (p.assign other).2._value = true
    rcases key other with h | h
    · exact h
    · rw [h]; exact hp
  | setFromVariant v =>
    refine ⟨Param.setFromVariant_validator p v, fun hp => ?_⟩
    show (p.setFromVariant v).2._validator (p.setFromVariant v).2._value = true
    rw [Param.setFromVariant_state]
    split
    · exact hp
    · rename_i other _
      rcases key other with h | h
      · exact h
      · rw [h]; exact hp

/-! Section: the states of `Object` -/

/-- The constructor does not throw, and builds `Object.fresh`. -/
theorem Object.ctor_eq_fresh : Object.ctor = Except.ok Object.fresh := by
  rfl

/-- The state `Object()` builds has the declared registry, names and validators. -/
theorem Object.fresh_declared : Object.fresh.Declared :=
  ⟨rfl, rfl, rfl, rfl, rfl, rfl, rfl⟩

/-- A virtual `setFromVariant` through a stored pointer keeps what construction
fixed. -/
theorem Object.Declared.setFromVariant {o : Object} (h : o.Declared) (m : Object.Member)
    (v : Variant) : (o.setFromVariant m v).2.Declared := by
  cases m
  · exact ⟨h.params, (Param.setFromVariant_name o.i v).trans h.i_name, h.d_name, h.s_name,
      (Param.setFromVariant_validator o.i v).trans h.i_validator, h.d_validator, h.s_validator⟩
  · exact ⟨h.params, h.i_name, (Param.setFromVariant_name o.d v).trans h.d_name, h.s_name,
      h.i_validator, (Param.setFromVariant_validator o.d v).trans h.d_validator, h.s_validator⟩
  · exact ⟨h.params, h.i_name, h.d_name, (Param.setFromVariant_name o.s v).trans h.s_name,
      h.i_validator, h.d_validator, (Param.setFromVariant_validator o.s v).trans h.s_validator⟩

/-- The state after `zero()`, member by member: each typed assignment that is
reached acts on its own member, and the map is not touched. -/
theorem Object.zero_state (o : Object) :
    o.zero.2.params = o.params
    ∧ o.zero.2.i = (o.i.assign 0).2
    ∧ (o.zero.2.d = o.d ∨ o.zero.2.d = (o.d.assign Double.zero).2)
    ∧ (o.zero.2.s = o.s ∨ o.zero.2.s = (o.s.assign "zero").2) := by
  unfold Object.zero
  rcases hi : o.i.assign 0 with ⟨ri, i'⟩
  cases ri with
  | error e => exact ⟨rfl, rfl, Or.inl rfl, Or.inl rfl⟩
  | ok a =>
    rcases hd : o.d.assign Double.zero with ⟨rd, d'⟩
    cases rd with
    | error e => exact ⟨rfl, rfl, Or.inr rfl, Or.inl rfl⟩
    | ok b =>
      rcases hs : o.s.assign "zero" with ⟨rs, s'⟩
      cases rs with
      | error e => exact ⟨rfl, rfl, Or.inr rfl, Or.inr rfl⟩
      | ok c => exact ⟨rfl, rfl, Or.inr rfl, Or.inr rfl⟩

/-- The call `zero()` keeps what construction fixed. -/
theorem Object.Declared.zero {o : Object} (h : o.Declared) : o.zero.2.Declared := by
  obtain ⟨hp, hi, hd, hs⟩ := Object.zero_state o
  refine ⟨hp.trans h.params, ?_, ?_, ?_, ?_, ?_, ?_⟩
  · rw [hi]; exact (Param.assign_name o.i 0).trans h.i_name
  · rcases hd with hd | hd <;> rw [hd]
    · exact h.d_name
    · exact (Param.assign_name o.d _).trans h.d_name
  · rcases hs with hs | hs <;> rw [hs]
    · exact h.s_name
    · exact (Param.assign_name o.s _).trans h.s_name
  · rw [hi]; exact (Param.assign_validator o.i 0).trans h.i_validator
  · rcases hd with hd | hd <;> rw [hd]
    · exact h.d_validator
    · exact (Param.assign_validator o.d _).trans h.d_validator
  · rcases hs with hs | hs <;> rw [hs]
    · exact h.s_validator
    · exact (Param.assign_validator o.s _).trans h.s_validator

/-- Every call keeps what construction fixed. -/
theorem Object.Declared.step {o : Object} (h : o.Declared) (c : Object.Call) :
    (o.step c).Declared := by
  cases c with
  | setParam name value =>
    show (o.setParam name value).2.Declared
    unfold Object.setParam
    cases o.params.find name with
    | none => exact h
    | some m => exact h.setFromVariant m value
  | getParam name =>
    show (o.getParam name).2.Declared
    unfold Object.getParam
    cases o.params.find name <;> exact h
  | zero => exact h.zero

/-- In every reachable state the registry, the names and the validators are the
declared ones. -/
theorem Object.Reachable.declared {o : Object} (h : o.Reachable) : o.Declared := by
  induction h with
  | init hc =>
    rw [Object.ctor_eq_fresh] at hc
    cases hc
    exact Object.fresh_declared
  | step c _ ih => exact ih.step c

/-- C3: an import whose tag is not the field's type throws the mismatch error of
that type, which is a `runtime_error` and not the validation `range_error`,
whatever the validator (it is never consulted), and the field is exactly as it
was.  On the program's `Object`, in every reachable state,
`setParam("myDouble", v)` with a STRING-tagged `v` throws "Not a double" and
leaves the whole object, `myDouble` included, as it was. -/
theorem Param.setFromVariant_tag_mismatch :
    (∀ (k : Variant.type) (p : Param k.T) (v : Variant), v._type ≠ k →
        p.setFromVariant v = (Except.error k.notA, p)
        ∧ k.notA ≠ Failure.range_error "Value not valid!")
    ∧ (∀ (o : Object) (v : Variant), o.Reachable → v._type = Variant.type.STRING →
        o.setParam "myDouble" v = (Except.error (Failure.runtime_error "Not a double"), o)
        ∧ (o.setParam "myDouble" v).2.d.getValue = o.d.getValue) := by
  have general : ∀ (k : Variant.type) (p : Param k.T) (v : Variant), v._type ≠ k →
      p.setFromVariant v = (Except.error k.notA, p) := by
    intro k p v h
    unfold Param.setFromVariant
    rw [convert_of_tag_ne k v h]
  refine ⟨fun k p v h => ⟨general k p v h, ?_⟩, ?_⟩
  · cases k <;> simp [Variant.type.notA]
  · intro o v hr hv
    have hd := hr.declared
    have hfind : o.params.find "myDouble" = some Object.Member.d := by
      rw [hd.params]; decide
    have hne : v._type ≠ Variant.type.DOUBLE := by rw [hv]; decide
    have hset : o.setParam "myDouble" v
        = (Except.error (Failure.runtime_error "Not a double"), o) := by
      unfold Object.setParam
      rw [hfind]
      show ((o.d.setFromVariant v).1, { o with d := (o.d.setFromVariant v).2 }) = _
      rw [general Variant.type.DOUBLE o.d v hne]
      rfl
    exact ⟨hset, by rw [hset]⟩

/-- C3, on the object `Object()` builds and the literal "123" of `main`, and on
an int field given a double. -/
theorem Param.setFromVariant_tag_mismatch_witness :
    (Object.fresh.setParam "myDouble" (Variant.ofCStr "123")
        = (Except.error (Failure.runtime_error "Not a double"), Object.fresh)
      ∧ (Object.fresh.setParam "myDouble" (Variant.ofCStr "123")).2.d.getValue
        = Object.fresh.d.getValue)
    ∧ (Param.ctorMinMax "myInt" 0 (-10) 10 : Param Int).setFromVariant
          (Variant.ofDouble Double.zero)
        = (Except.error (Failure.runtime_error "Not an int"),
            (Param.ctorMinMax "myInt" 0 (-10) 10 : Param Int)) :=
  ⟨Param.setFromVariant_tag_mismatch.2 Object.fresh (Variant.ofCStr "123")
      (Object.Reachable.init Object.ctor_eq_fresh) rfl,
    (Param.setFromVariant_tag_mismatch.1 Variant.type.INT
      (Param.ctorMinMax "myInt" 0 (-10) 10 : Param Int) (Variant.ofDouble Double.zero)
      (by decide)).1⟩

/-- C4, as stated, fails: `Param<int> p(nullptr, "x", 100, -10, 10)` holds 100,
which its own validator rejects (the constructors store the initial value
without consulting the validator), and `p.setFromVariant(p.getAsVariant())`
throws `range_error("Value not valid!")` instead of succeeding. -/
theorem Param.export_import_counterexample :
    (Param.ctorMinMax "x" 100 (-10) 10 : Param Int).getValue = 100
    ∧ ((Param.ctorMinMax "x" 100 (-10) 10 : Param Int).setFromVariant
          (Param.ctorMinMax "x" 100 (-10) 10 : Param Int).getAsVariant).1
        = Except.error (Failure.range_error "Value not valid!")
    ∧ ((Param.ctorMinMax "x" 100 (-10) 10 : Param Int).setFromVariant
          (Param.ctorMinMax "x" 100 (-10) 10 : Param Int).getAsVariant).1
        ≠ Except.ok () := by
  have e : ((Param.ctorMinMax "x" 100 (-10) 10 : Param Int).setFromVariant
        (Param.ctorMinMax "x" 100 (-10) 10 : Param Int).getAsVariant).1
      = Except.error (Failure.range_error "Value not valid!") := rfl
  exact ⟨rfl, e, fun h => by cases e.symm.trans h⟩

/-- C4, amended: for a `Param<T>` of each of the three kinds, in any state,
`f.setFromVariant(f.getAsVariant())` leaves the field exactly as it was; it
succeeds when the value the field holds is accepted by the field's validator,
and throws `range_error("Value not valid!")` when it is not. -/
theorem Param.export_import (k : Variant.type) (p : Param k.T) :
    (p.setFromVariant p.getAsVariant).2 = p
    ∧ (p._validator p.getValue = true → (p.setFromVariant p.getAsVariant).1 = Except.ok ())
    ∧ (p._validator p.getValue = false →
        (p.setFromVariant p.getAsVariant).1
          = Except.error (Failure.range_error "Value not valid!")) := by
  have hc : (VariantValue.convert p.getAsVariant : Except Failure k.T) = Except.ok p._value :=
    convert_ofValue k p._value
  unfold Param.setFromVariant
  rw [hc]
  simp only [Param.assign, Param.getValue]
  cases h : p._validator p._value <;> simp

/-- C4, amended, at the three fields as `Object()` declares them (each holds a
value its validator accepts) and at an int field holding the rejected 100. -/
theorem Param.export_import_witness :
    (Object.fresh.i.setFromVariant Object.fresh.i.getAsVariant).1 = Except.ok ()
    ∧ (Object.fresh.d.setFromVariant Object.fresh.d.getAsVariant).1 = Except.ok ()
    ∧ (Object.fresh.s.setFromVariant Object.fresh.s.getAsVariant).1 = Except.ok ()
    ∧ (Object.fresh.s.setFromVariant Object.fresh.s.getAsVariant).2 = Object.fresh.s
    ∧ ((Param.ctorMinMax "x" 100 (-10) 10 : Param Int).setFromVariant
          (Param.ctorMinMax "x" 100 (-10) 10 : Param Int).getAsVariant).1
        = Except.error (Failure.range_error "Value not valid!") :=
  ⟨(Param.export_import Variant.type.INT Object.fresh.i).2.1 (by decide),
    (Param.export_import Variant.type.DOUBLE Object.fresh.d).2.1 (by decide),
    (Param.export_import Variant.type.STRING Object.fresh.s).2.1 (by decide),
    (Param.export_import Variant.type.STRING Object.fresh.s).1,
    (Param.export_import Variant.type.INT (Param.ctorMinMax "x" 100 (-10) 10 : Param Int)).2.2
      (by decide)⟩

/-- C5, as stated, fails: `Param<int> p(nullptr, "x", 100, -10, 10)` is observed
holding 100, which its validator rejects, right after construction and still
after the failing calls `p = 11` and `p.setFromVariant(Variant("123"))`. -/
theorem Param.validator_invariant_counterexample :
    (Param.ctorMinMax "x" 100 (-10) 10 : Param Int)._validator
        ((Param.ctorMinMax "x" 100 (-10) 10 : Param Int).run []).getValue = false
    ∧ ((Param.ctorMinMax "x" 100 (-10) 10 : Param Int).run
          [Param.Call.assign 11, Param.Call.setFromVariant (Variant.ofCStr "123")]).getValue
        = 100
    ∧ (Param.ctorMinMax "x" 100 (-10) 10 : Param Int)._validator 100 = false := by
  decide

/-- C5, amended: a `Param<T>` constructed with any name, any validator (a range
or an explicit predicate) and an initial value that this validator accepts
holds, after any sequence of typed assignments and `setFromVariant` calls,
successful or failing, a value its validator accepts; the validator itself
never changes. -/
theorem Param.validator_invariant {T : Type} [VariantValue T] (name : String)
    (initialValue : T) (validator : T → Bool) (calls : List (Param.Call T))
    (h : validator initialValue = true) :
    ((Param.ctor name initialValue validator).run calls)._validator = validator
    ∧ validator ((Param.ctor name initialValue validator).run calls).getValue = true := by
  have gen : ∀ (calls : List (Param.Call T)) (p : Param T),
      p._validator p._value = true →
      (p.run calls)._validator = p._validator
      ∧ (p.run calls)._validator (p.run calls)._value = true := by
    intro calls
    induction calls with
    | nil => intro p hp; exact ⟨rfl, hp⟩
    | cons c rest ih =>
      intro p hp
      obtain ⟨hv, hk⟩ := Param.step_keeps p c
      obtain ⟨h1, h2⟩ := ih (p.step c) (hk hp)
      exact ⟨h1.trans hv, h2⟩
  obtain ⟨h1, h2⟩ := gen calls (Param.ctor name initialValue validator) h
  have h3 : ((Param.ctor name initialValue validator).run calls)._validator = validator := h1
  rw [h3] at h2
  exact ⟨h3, h2⟩

/-- C5, amended, at the range-checked int field of the program after a rejected
assignment, an accepted import, a mismatched import and an accepted
assignment. -/
theorem Param.validator_invariant_witness :
    checkMinMax (-10) 10 (0 : Int) = true
    ∧ checkMinMax (-10) 10
        ((Param.ctor "myInt" (0 : Int) (checkMinMax (-10) 10)).run
          [Param.Call.assign 11, Param.Call.setFromVariant (Variant.ofInt 5),
            Param.Call.setFromVariant (Variant.ofCStr "123"),
            Param.Call.assign (-10)]).getValue = true :=
  ⟨by decide,
    (Param.validator_invariant "myInt" (0 : Int) (checkMinMax (-10) 10)
      [Param.Call.assign 11, Param.Call.setFromVariant (Variant.ofInt 5),
        Param.Call.setFromVariant (Variant.ofCStr "123"), Param.Call.assign (-10)]
      (by decide)).2⟩

/-! Section: theorems about the registry -/

/-- Two strings are equivalent keys (neither is less than the other) exactly
when they are equal. -/
theorem StdMap.equiv_iff (a b : String) :
    (¬ a.data < b.data ∧ ¬ b.data < a.data) ↔ a = b := by
  constructor
  · rintro ⟨h1, h2⟩
    rcases lt_trichotomy a.data b.data with h | h | h
    · exact absurd h h1
    · exact String.ext h
    · exact absurd h h2
  · rintro rfl
    exact ⟨lt_irrefl _, lt_irrefl _⟩

/-- Looking a name up scans for the first entry with that key. -/
theorem StdMap.find_cons {P : Type} (k : String) (q : P) (rest : StdMap P) (name : String) :
    StdMap.find ((k, q) :: rest) name = if k = name then some q else StdMap.find rest name := by
  simp only [StdMap.find, StdMap.equiv_iff]

/-- A name is found exactly when it is one of the keys. -/
theorem StdMap.find_eq_none_iff {P : Type} (m : StdMap P) (name : String) :
    m.find name = none ↔ name ∉ m.keys := by
  induction m with
  | nil => simp [StdMap.find, StdMap.keys]
  | cons e rest ih =>
    obtain ⟨k, q⟩ := e
    rw [StdMap.find_cons]
    by_cases hk : k = name
    · simp [hk, StdMap.keys]
    · have hk2 : ¬ name = k := fun h => hk h.symm
      simp only [hk, if_false, ih]
      simp [StdMap.keys, hk2]

/-- What is found under a name is an entry of the map. -/
theorem StdMap.mem_of_find {P : Type} (m : StdMap P) (name : String) (q : P)
    (h : m.find name = some q) : (name, q) ∈ m := by
  induction m with
  | nil => simp [StdMap.find] at h
  | cons e rest ih =>
    obtain ⟨k, r⟩ := e
    rw [StdMap.find_cons] at h
    by_cases hk : k = name
    · simp only [hk, if_true, Option.some.injEq] at h
      subst hk; subst h
      exact List.mem_cons_self _ _
    · simp only [hk, if_false] at h
      exact List.mem_cons_of_mem _ (ih h)

/-- Lookup after `m[name] = p`: `name` is bound to `p`, every other name to what
it was bound to. -/
theorem StdMap.find_set {P : Type} (m : StdMap P) (name : String) (p : P) (k : String) :
    (m.set name p).find k = if k = name then some p else m.find k := by
  induction m with
  | nil =>
    have hnil : StdMap.find ([] : StdMap P) k = none := rfl
    simp only [StdMap.set, StdMap.find_cons, hnil]
    by_cases h : k = name
    · simp [h]
    · have h2 : ¬ name = k := fun e => h e.symm
      simp [h, h2]
  | cons e rest ih =>
    obtain ⟨k0, q⟩ := e
    simp only [StdMap.set]
    by_cases h1 : name.data < k0.data
    · simp only [h1, if_true, StdMap.find_cons]
      by_cases h : k = name
      · simp [h]
      · have h2 : ¬ name = k := fun e => h e.symm
        simp [h, h2]
    · by_cases h2 : k0.data < name.data
      · simp only [h1, h2, if_true, if_false, StdMap.find_cons, ih]
        by_cases h : k = name
        · have h3 : ¬ k0 = k := by
            rintro rfl
            rw [h] at h2
            exact lt_irrefl _ h2
          simp [h, h3]
          intro h4
          rw [h4] at h2
          exact absurd h2 (lt_irrefl _)
        · simp [h]
      · have h3 : k0 = name := (StdMap.equiv_iff k0 name).1 ⟨h2, h1⟩
        simp only [h1, h2, if_false, StdMap.find_cons]
        subst h3
        by_cases h : k = k0
        · simp [h]
        · have h4 : ¬ k0 = k := fun e => h e.symm
          simp [h, h4]

/-- When `name` is not a key, `m[name] = p` adds one entry and keeps the rest. -/
theorem StdMap.set_perm {P : Type} (m : StdMap P) (name : String) (p : P)
    (h : m.find name = none) : (m.set name p).Perm ((name, p) :: m) := by
  induction m with
  | nil => exact List.Perm.refl _
  | cons e rest ih =>
    obtain ⟨k0, q⟩ := e
    rw [StdMap.find_cons] at h
    have hk : ¬ k0 = name := by
      intro hk
      simp [hk] at h
    simp only [hk, if_false] at h
    simp only [StdMap.set]
    by_cases h1 : name.data < k0.data
    · simp only [h1, if_true]
      exact List.Perm.refl _
    · have h2 : k0.data < name.data := by
        rcases lt_trichotomy name.data k0.data with h3 | h3 | h3
        · exact absurd h3 h1
        · exact absurd (String.ext h3).symm hk
        · exact h3
      simp only [h1, h2, if_true, if_false]
      exact ((ih h).cons (k0, q)).trans (List.Perm.swap _ _ _)

/-- An entry of the map after `m[name] = p` has the key `name` or was an entry
before. -/
theorem StdMap.mem_set {P : Type} (m : StdMap P) (name : String) (p : P) (x : String × P)
    (h : x ∈ m.set name p) : x.1 = name ∨ x ∈ m := by
  induction m with
  | nil =>
    simp only [StdMap.set, List.mem_singleton] at h
    exact Or.inl (by rw [h])
  | cons e rest ih =>
    obtain ⟨k0, q⟩ := e
    simp only [StdMap.set] at h
    by_cases h1 : name.data < k0.data
    · simp only [h1, if_true] at h
      rcases List.mem_cons.1 h with h | h
      · exact Or.inl (by rw [h])
      · exact Or.inr h
    · by_cases h2 : k0.data < name.data
      · simp only [h1, h2, if_true, if_false] at h
        rcases List.mem_cons.1 h with h | h
        · exact Or.inr (by rw [h]; exact List.mem_cons_self _ _)
        · rcases ih h with h | h
          · exact Or.inl h
          · exact Or.inr (List.mem_cons_of_mem _ h)
      · have h3 : k0 = name := (StdMap.equiv_iff k0 name).1 ⟨h2, h1⟩
        simp only [h1, h2, if_false] at h
        rcases List.mem_cons.1 h with h | h
        · exact Or.inl (by rw [h]; exact h3)
        · exact Or.inr (List.mem_cons_of_mem _ h)

/-- The statement `m[name] = p` keeps the keys strictly ascending. -/
theorem StdMap.set_wf {P : Type} (m : StdMap P) (name : String) (p : P) (h : m.WF) :
    (m.set name p).WF := by
  induction m with
  | nil => exact List.pairwise_singleton _ _
  | cons e rest ih =>
    obtain ⟨k0, q⟩ := e
    have hrest : StdMap.WF rest := (List.pairwise_cons.1 h).2
    have hhead : ∀ e ∈ rest, k0.data < e.1.data := (List.pairwise_cons.1 h).1
    simp only [StdMap.set]
    by_cases h1 : name.data < k0.data
    · simp only [h1, if_true]
      refine List.pairwise_cons.2 ⟨?_, h⟩
      intro e he
      rcases List.mem_cons.1 he with he | he
      · rw [he]; exact h1
      · exact lt_trans h1 (hhead e he)
    · by_cases h2 : k0.data < name.data
      · simp only [h1, h2, if_true, if_false]
        refine List.pairwise_cons.2 ⟨?_, ih hrest⟩
        intro x hx
        rcases StdMap.mem_set rest name p x hx with hx | hx
        · rw [hx]; exact h2
        · exact hhead x hx
      · have h3 : k0 = name := (StdMap.equiv_iff k0 name).1 ⟨h2, h1⟩
        simp only [h1, h2, if_false]
        exact List.pairwise_cons.2 ⟨hhead, hrest⟩

/-- Ascending entries have ascending keys. -/
theorem StdMap.WF.keys_pairwise {P : Type} {m : StdMap P} (h : m.WF) :
    m.keys.Pairwise (fun a b => a.data < b.data) :=
  List.pairwise_map.2 h

/-- No key occurs twice in a map. -/
theorem StdMap.WF.keys_nodup {P : Type} {m : StdMap P} (h : m.WF) : m.keys.Nodup := by
  refine List.Pairwise.imp ?_ h.keys_pairwise
  intro a b hab heq
  rw [heq] at hab
  exact lt_irrefl _ hab

/-- When `name` is not a key, the keys after `m[name] = p` are `name` and the
earlier keys. -/
theorem StdMap.keys_set_perm {P : Type} (m : StdMap P) (name : String) (p : P)
    (h : m.find name = none) : (m.set name p).keys.Perm (name :: m.keys) := by
  have hp := List.Perm.map (fun e : String × P => e.1) (StdMap.set_perm m name p h)
  exact hp

/-- C6: `registerParam(p)` on a map (keys strictly ascending, as `std::map` keeps
them), `pName` being `p->getName()`.  When `pName` is already bound, to `q`
say, the call throws `runtime_error("Name already used!")` and the map is the
same: it has exactly one entry with that key, still bound to `q`.  Otherwise
the call returns and the map is the old one plus the entry `(pName, p)`: the
entries are those of the old map and the new one, `pName` is bound to `p`, and
every other name is bound to what it was bound to. -/
theorem Object.registerParam_spec {P : Type} (params : StdMap P) (p : P) (pName : String)
    (hwf : params.WF) :
    (∀ q, params.find pName = some q →
        Object.registerParam params p pName
          = (Except.error (Failure.runtime_error "Name already used!"), params)
        ∧ (Object.registerParam params p pName).2.keys.count pName = 1
        ∧ (Object.registerParam params p pName).2.find pName = some q)
    ∧ (params.find pName = none →
        (Object.registerParam params p pName).1 = Except.ok ()
        ∧ (Object.registerParam params p pName).2.Perm ((pName, p) :: params)
        ∧ (Object.registerParam params p pName).2.WF
        ∧ ∀ k, (Object.registerParam params p pName).2.find k
            = if k = pName then some p else params.find k) := by
  constructor
  · intro q hq
    have hreg : Object.registerParam params p pName
        = (Except.error (Failure.runtime_error "Name already used!"), params) := by
      unfold Object.registerParam
      rw [hq]
    rw [hreg]
    refine ⟨rfl, ?_, hq⟩
    have hmem : pName ∈ params.keys :=
      List.mem_map.2 ⟨(pName, q), StdMap.mem_of_find params pName q hq, rfl⟩
    exact List.count_eq_one_of_mem hwf.keys_nodup hmem
  · intro hnone
    have hreg : Object.registerParam params p pName = (Except.ok (), params.set pName p) := by
      unfold Object.registerParam
      rw [hnone]
    rw [hreg]
    exact ⟨rfl, StdMap.set_perm params pName p hnone, StdMap.set_wf params pName p hwf,
      fun k => StdMap.find_set params pName p k⟩

/-- C6, on the map of the program's object: registering under "myInt" again
throws and changes nothing, registering under "other" adds that entry. -/
theorem Object.registerParam_spec_witness :
    (Object.registerParam Object.fresh.params Object.Member.s "myInt"
        = (Except.error (Failure.runtime_error "Name already used!"), Object.fresh.params)
      ∧ (Object.registerParam Object.fresh.params Object.Member.s "myInt").2.keys.count "myInt"
        = 1
      ∧ (Object.registerParam Object.fresh.params Object.Member.s "myInt").2.find "myInt"
        = some Object.Member.i)
    ∧ (Object.registerParam Object.fresh.params Object.Member.s "other").1 = Except.ok ()
    ∧ (Object.registerParam Object.fresh.params Object.Member.s "other").2
        = [("myDouble", Object.Member.d), ("myInt", Object.Member.i),
            ("myString", Object.Member.s), ("other", Object.Member.s)] :=
  ⟨(Object.registerParam_spec Object.fresh.params Object.Member.s "myInt"
      (by unfold StdMap.WF; decide)).1 Object.Member.i (by decide),
    ((Object.registerParam_spec Object.fresh.params Object.Member.s "other"
      (by unfold StdMap.WF; decide)).2 (by decide)).1,
    by decide⟩

/-- Registering pointers whose names are distinct and not yet keys succeeds for
each, keeps the keys ascending, and adds exactly their names to the keys. -/
theorem Object.registerAll_fresh {P : Type} (getName : P → String) (ps : List P) :
    ∀ m : StdMap P, m.WF → (ps.map getName).Nodup → (∀ n ∈ ps.map getName, n ∉ m.keys) →
      (Object.registerAll getName m ps).1 = Except.ok ()
      ∧ (Object.registerAll getName m ps).2.WF
      ∧ (Object.registerAll getName m ps).2.keys.Perm (m.keys ++ ps.map getName) := by
  induction ps with
  | nil =>
    intro m hwf _ _
    exact ⟨rfl, hwf, by simp [Object.registerAll]⟩
  | cons p ps ih =>
    intro m hwf hnd hdisj
    have hnone : m.find (getName p) = none :=
      (StdMap.find_eq_none_iff m (getName p)).2 (hdisj _ (List.mem_cons_self _ _))
    have hreg : Object.registerParam m p (getName p) = (Except.ok (), m.set (getName p) p) := by
      unfold Object.registerParam
      rw [hnone]
    have hperm := StdMap.keys_set_perm m (getName p) p hnone
    have hnd2 : (ps.map getName).Nodup := (List.nodup_cons.1 hnd).2
    have hnotin : getName p ∉ ps.map getName := (List.nodup_cons.1 hnd).1
    have hdisj2 : ∀ n ∈ ps.map getName, n ∉ (m.set (getName p) p).keys := by
      intro n hn hmem
      rcases List.mem_cons.1 (hperm.mem_iff.1 hmem) with h | h
      · exact hnotin (h ▸ hn)
      · exact hdisj n (List.mem_cons_of_mem _ hn) h
    obtain ⟨h1, h2, h3⟩ := ih (m.set (getName p) p)
      (StdMap.set_wf m (getName p) p hwf) hnd2 hdisj2
    have hstep : Object.registerAll getName m (p :: ps)
        = Object.registerAll getName (m.set (getName p) p) ps := by
      simp only [Object.registerAll, hreg]
    rw [hstep]
    refine ⟨h1, h2, h3.trans ?_⟩
    have : (getName p :: m.keys ++ List.map getName ps).Perm
        (m.keys ++ getName p :: List.map getName ps) := List.perm_middle.symm
    exact (hperm.append_right _).trans this

/-- C7, as stated, fails: the constructor registers myInt, then myDouble, then
myString, and `listParams` writes myDouble, myInt, myString, because `params`
is a `std::map`, which iterates in ascending key order and keeps no record of
the order of insertion. -/
theorem Object.listParams_counterexample :
    Object.ctor.map Object.listParams = Except.ok ["myDouble", "myInt", "myString"]
    ∧ Object.ctor.map Object.listParams ≠ Except.ok ["myInt", "myDouble", "myString"]
    ∧ (Object.registerAll Object.fresh.getName []
          [Object.Member.i, Object.Member.d, Object.Member.s]).2.keys
        ≠ [Object.Member.i, Object.Member.d, Object.Member.s].map Object.fresh.getName := by
  have e : Object.ctor.map Object.listParams = Except.ok ["myDouble", "myInt", "myString"] := by
    rw [Object.ctor_eq_fresh]
    rfl
  refine ⟨e, fun h => ?_, by decide⟩
  have h2 := e.symm.trans h
  injection h2 with h3
  exact absurd h3 (by decide)

/-- C7, amended: `listParams` enumerates the registered names in ascending order
of the names (the order of `operator<` on `std::string`), whatever the order of
registration.  For any sequence of `registerParam` calls with distinct names on
an empty map, every call succeeds and the listing is that sequence of names
rearranged in strictly ascending order; for the program's `Object` the listing
is myDouble, myInt, myString. -/
theorem Object.listParams_ascending {P : Type} (getName : P → String) (ps : List P)
    (h : (ps.map getName).Nodup) :
    (Object.registerAll getName [] ps).1 = Except.ok ()
    ∧ (Object.registerAll getName [] ps).2.keys.Perm (ps.map getName)
    ∧ (Object.registerAll getName [] ps).2.keys.Pairwise (fun a b => a.data < b.data)
    ∧ (∀ o : Object, Object.ctor = Except.ok o →
        o.listParams = ["myDouble", "myInt", "myString"]) := by
  obtain ⟨h1, h2, h3⟩ := Object.registerAll_fresh getName ps [] List.Pairwise.nil h
    (fun _ _ hm => by simp [StdMap.keys] at hm)
  refine ⟨h1, ?_, h2.keys_pairwise, ?_⟩
  · simpa [StdMap.keys] using h3
  · intro o ho
    rw [Object.ctor_eq_fresh] at ho
    cases ho
    rfl

/-- C7, amended, at the registrations of the program in their order, myInt,
myDouble, myString: the listing is a rearrangement of these, and it is
myDouble, myInt, myString. -/
theorem Object.listParams_ascending_witness :
    ((Object.registerAll Object.fresh.getName []
          [Object.Member.i, Object.Member.d, Object.Member.s]).1 = Except.ok ()
      ∧ (Object.registerAll Object.fresh.getName []
          [Object.Member.i, Object.Member.d, Object.Member.s]).2.keys.Perm
            ([Object.Member.i, Object.Member.d, Object.Member.s].map Object.fresh.getName)
      ∧ (Object.registerAll Object.fresh.getName []
          [Object.Member.i, Object.Member.d, Object.Member.s]).2.keys.Pairwise
            (fun a b => a.data < b.data)
      ∧ (∀ o : Object, Object.ctor = Except.ok o →
          o.listParams = ["myDouble", "myInt", "myString"]))
    ∧ (Object.registerAll Object.fresh.getName []
          [Object.Member.i, Object.Member.d, Object.Member.s]).2.keys
        = ["myDouble", "myInt", "myString"] :=
  ⟨Object.listParams_ascending Object.fresh.getName
      [Object.Member.i, Object.Member.d, Object.Member.s] (by decide),
    by decide⟩

/-- In a state with the declared registry, the three names are bound to the
three members and no other name is bound. -/
theorem Object.Declared.find {o : Object} (h : o.Declared) :
    o.params.find "myInt" = some Object.Member.i
    ∧ o.params.find "myDouble" = some Object.Member.d
    ∧ o.params.find "myString" = some Object.Member.s
    ∧ ∀ name, o.params.find name = none
        ↔ (name ≠ "myInt" ∧ name ≠ "myDouble" ∧ name ≠ "myString") := by
  rw [h.params]
  refine ⟨by decide, by decide, by decide, fun name => ?_⟩
  rw [StdMap.find_eq_none_iff]
  simp only [StdMap.keys, List.map_cons, List.map_nil, List.mem_cons, List.mem_singleton,
    List.not_mem_nil, or_false, not_or]
  tauto

/-- C8: with a name that is not registered, `getParam(name)` and
`setParam(name, v)` both throw `runtime_error("Param not found!")` and leave the
object (the map and the three fields) exactly as it was; in every reachable
state of the program's `Object` this is so for every string other than "myInt",
"myDouble" and "myString", and these are exactly the names that are not
registered. -/
theorem Object.unregistered_name :
    (∀ (o : Object) (name : String) (v : Variant), o.params.find name = none →
        o.getParam name = (Except.error (Failure.runtime_error "Param not found!"), o)
        ∧ o.setParam name v = (Except.error (Failure.runtime_error "Param not found!"), o))
    ∧ (∀ (o : Object) (name : String) (v : Variant), o.Reachable →
        name ≠ "myInt" → name ≠ "myDouble" → name ≠ "myString" →
        o.getParam name = (Except.error (Failure.runtime_error "Param not found!"), o)
        ∧ o.setParam name v = (Except.error (Failure.runtime_error "Param not found!"), o))
    ∧ (∀ (o : Object) (name : String), o.Reachable →
        (o.params.find name = none
          ↔ (name ≠ "myInt" ∧ name ≠ "myDouble" ∧ name ≠ "myString"))) := by
  have general : ∀ (o : Object) (name : String) (v : Variant), o.params.find name = none →
      o.getParam name = (Except.error (Failure.runtime_error "Param not found!"), o)
      ∧ o.setParam name v = (Except.error (Failure.runtime_error "Param not found!"), o) := by
    intro o name v h
    unfold Object.getParam Object.setParam
    rw [h]
    exact ⟨rfl, rfl⟩
  refine ⟨general, ?_, ?_⟩
  · intro o name v hr h1 h2 h3
    exact general o name v ((hr.declared.find.2.2.2 name).2 ⟨h1, h2, h3⟩)
  · intro o name hr
    exact hr.declared.find.2.2.2 name

/-- C8, on the object `Object()` builds and the name "myFloat". -/
theorem Object.unregistered_name_witness :
    Object.fresh.getParam "myFloat"
        = (Except.error (Failure.runtime_error "Param not found!"), Object.fresh)
    ∧ Object.fresh.setParam "myFloat" (Variant.ofInt 5)
        = (Except.error (Failure.runtime_error "Param not found!"), Object.fresh) :=
  Object.unregistered_name.2.1 Object.fresh "myFloat" (Variant.ofInt 5)
    (Object.Reachable.init Object.ctor_eq_fresh) (by decide) (by decide) (by decide)

/-- C9: in every reachable state of the program's `Object`, `getParam` with each
registered name returns (it does not throw), the `Variant` it returns is the one
constructed from the current value of the field of that name, so that it has
the tag of the field's declared kind (INT for myInt, DOUBLE for myDouble, STRING
for myString) and converts to that kind with exactly the field's current value,
and the object is left as it was. -/
theorem Object.getParam_registered (o : Object) (h : o.Reachable) :
    (o.getParam "myInt" = (Except.ok (Variant.ofInt o.i.getValue), o)
      ∧ (Variant.ofInt o.i.getValue)._type = Variant.type.INT
      ∧ (Variant.ofInt o.i.getValue).toInt = Except.ok o.i.getValue)
    ∧ (o.getParam "myDouble" = (Except.ok (Variant.ofDouble o.d.getValue), o)
      ∧ (Variant.ofDouble o.d.getValue)._type = Variant.type.DOUBLE
      ∧ (Variant.ofDouble o.d.getValue).toDouble = Except.ok o.d.getValue)
    ∧ (o.getParam "myString" = (Except.ok (Variant.ofString o.s.getValue), o)
      ∧ (Variant.ofString o.s.getValue)._type = Variant.type.STRING
      ∧ (Variant.ofString o.s.getValue).toString = Except.ok o.s.getValue) := by
  obtain ⟨hi, hd, hs, _⟩ := h.declared.find
  refine ⟨⟨?_, rfl, ?_⟩, ⟨?_, rfl, ?_⟩, ⟨?_, rfl, ?_⟩⟩
  · unfold Object.getParam; rw [hi]; rfl
  · simp [Variant.toInt, Variant.ofInt]
  · unfold Object.getParam; rw [hd]; rfl
  · simp [Variant.toDouble, Variant.ofDouble]
  · unfold Object.getParam; rw [hs]; rfl
  · simp [Variant.toString, Variant.ofString]

/-- C9, in the state reached from construction by `setParam("myInt", 5)`: the
three reads return INT 5, DOUBLE 0.0 and STRING "string". -/
theorem Object.getParam_registered_witness :
    ((Object.fresh.step (Object.Call.setParam "myInt" (Variant.ofInt 5))).getParam "myInt").1
        = Except.ok (Variant.ofInt 5)
    ∧ ((Object.fresh.step (Object.Call.setParam "myInt" (Variant.ofInt 5))).getParam
          "myDouble").1 = Except.ok (Variant.ofDouble Double.zero)
    ∧ ((Object.fresh.step (Object.Call.setParam "myInt" (Variant.ofInt 5))).getParam
          "myString").1 = Except.ok (Variant.ofString "string") :=
  ⟨congrArg Prod.fst (Object.getParam_registered _
      (Object.Reachable.step (Object.Call.setParam "myInt" (Variant.ofInt 5))
        (Object.Reachable.init Object.ctor_eq_fresh))).1.1,
    congrArg Prod.fst (Object.getParam_registered _
      (Object.Reachable.step (Object.Call.setParam "myInt" (Variant.ofInt 5))
        (Object.Reachable.init Object.ctor_eq_fresh))).2.1.1,
    congrArg Prod.fst (Object.getParam_registered _
      (Object.Reachable.step (Object.Call.setParam "myInt" (Variant.ofInt 5))
        (Object.Reachable.init Object.ctor_eq_fresh))).2.2.1⟩

/-- An import whose conversion yields `x`, with `x` accepted by the validator,
returns and stores `x`. -/
theorem Param.setFromVariant_ok {T : Type} [VariantValue T] (p : Param T) (v : Variant) (x : T)
    (hc : (VariantValue.convert v : Except Failure T) = Except.ok x)
    (hv : p._validator x = true) :
    p.setFromVariant v = (Except.ok (), { p with _value := x }) := by
  unfold Param.setFromVariant
  rw [hc]
  simp [Param.assign, hv]

/-- C10: in every reachable state of the program's `Object`, for each registered
name and each `Variant` `v` carrying the tag of that field's kind and a payload
the field's validator accepts, `setParam(name, v)` returns and the `getParam(name)`
that follows returns a `Variant` with the tag of `v` and the payload of `v`
(it converts to the kind with that payload).  In particular, for every int `n`
with -10 <= n <= 10, after `setParam("myInt", n)` the value
`(int)getParam("myInt")` is `n`. -/
theorem Object.setParam_then_getParam (o : Object) (h : o.Reachable) (v : Variant) :
    (∀ n : Int, v._type = Variant.type.INT → v._u = Variant.Union._i n →
        o.i._validator n = true →
        (o.setParam "myInt" v).1 = Except.ok ()
        ∧ ∃ w, (o.setParam "myInt" v).2.getParam "myInt"
              = (Except.ok w, (o.setParam "myInt" v).2)
            ∧ w._type = v._type ∧ w.toInt = Except.ok n ∧ v.toInt = Except.ok n)
    ∧ (∀ x : Double, v._type = Variant.type.DOUBLE → v._u = Variant.Union._d x →
        o.d._validator x = true →
        (o.setParam "myDouble" v).1 = Except.ok ()
        ∧ ∃ w, (o.setParam "myDouble" v).2.getParam "myDouble"
              = (Except.ok w, (o.setParam "myDouble" v).2)
            ∧ w._type = v._type ∧ w.toDouble = Except.ok x ∧ v.toDouble = Except.ok x)
    ∧ (v._type = Variant.type.STRING → o.s._validator v._s = true →
        (o.setParam "myString" v).1 = Except.ok ()
        ∧ ∃ w, (o.setParam "myString" v).2.getParam "myString"
              = (Except.ok w, (o.setParam "myString" v).2)
            ∧ w._type = v._type ∧ w.toString = Except.ok v._s
            ∧ v.toString = Except.ok v._s)
    ∧ (∀ n : Int, -10 ≤ n → n ≤ 10 →
        (o.setParam "myInt" (Variant.ofInt n)).1 = Except.ok ()
        ∧ ((o.setParam "myInt" (Variant.ofInt n)).2.getParam "myInt").1.bind Variant.toInt
            = Except.ok n) := by
  have hd := h.declared
  obtain ⟨hi, hdb, hs, _⟩ := hd.find
  have int_case : ∀ (u : Variant) (n : Int), u.toInt = Except.ok n → o.i._validator n = true →
      o.setParam "myInt" u = (Except.ok (), { o with i := { o.i with _value := n } }) := by
    intro u n hu hv
    unfold Object.setParam
    rw [hi]
    show ((o.i.setFromVariant u).1, { o with i := (o.i.setFromVariant u).2 }) = _
    rw [Param.setFromVariant_ok o.i u n hu hv]
  have get_int : ∀ n : Int,
      ({ o with i := { o.i with _value := n } } : Object).getParam "myInt"
        = (Except.ok (Variant.ofInt n), { o with i := { o.i with _value := n } }) := by
    intro n
    unfold Object.getParam
    rw [show ({ o with i := { o.i with _value := n } } : Object).params = o.params from rfl, hi]
    rfl
  refine ⟨?_, ?_, ?_, ?_⟩
  · intro n ht hu hv
    have hconv : v.toInt = Except.ok n := by simp [Variant.toInt, ht, hu]
    rw [int_case v n hconv hv]
    refine ⟨rfl, Variant.ofInt n, get_int n, ?_, ?_, hconv⟩
    · rw [ht]; rfl
    · simp [Variant.toInt, Variant.ofInt]
  · intro x ht hu hv
    have hconv : v.toDouble = Except.ok x := by simp [Variant.toDouble, ht, hu]
    have hset : o.setParam "myDouble" v
        = (Except.ok (), { o with d := { o.d with _value := x } }) := by
      unfold Object.setParam
      rw [hdb]
      show ((o.d.setFromVariant v).1, { o with d := (o.d.setFromVariant v).2 }) = _
      rw [Param.setFromVariant_ok o.d v x hconv hv]
    rw [hset]
    refine ⟨rfl, Variant.ofDouble x, ?_, ?_, ?_, hconv⟩
    · unfold Object.getParam
      rw [show ({ o with d := { o.d with _value := x } } : Object).params = o.params from rfl,
        hdb]
      rfl
    · rw [ht]; rfl
    · simp [Variant.toDouble, Variant.ofDouble]
  · intro ht hv
    have hconv : v.toString = Except.ok v._s := by simp [Variant.toString, ht]
    have hset : o.setParam "myString" v
        = (Except.ok (), { o with s := { o.s with _value := v._s } }) := by
      unfold Object.setParam
      rw [hs]
      show ((o.s.setFromVariant v).1, { o with s := (o.s.setFromVariant v).2 }) = _
      rw [Param.setFromVariant_ok o.s v v._s hconv hv]
    rw [hset]
    refine ⟨rfl, Variant.ofString v._s, ?_, ?_, ?_, hconv⟩
    · unfold Object.getParam
      rw [show ({ o with s := { o.s with _value := v._s } } : Object).params = o.params from rfl,
        hs]
      rfl
    · rw [ht]; rfl
    · simp [Variant.toString, Variant.ofString]
  · intro n h1 h2
    have hv : o.i._validator n = true := by
      rw [hd.i_validator]
      simp [checkMinMax, h1, h2]
    have hconv : (Variant.ofInt n).toInt = Except.ok n := by simp [Variant.toInt, Variant.ofInt]
    rw [int_case (Variant.ofInt n) n hconv hv, get_int n]
    exact ⟨rfl, hconv⟩

/-- C10, on the object `Object()` builds: the `setParam("myInt", 5)` of `main`
followed by `(int)getParam("myInt")` gives 5, and setting myString to "zero"
then reading it gives a STRING-tagged "zero". -/
theorem Object.setParam_then_getParam_witness :
    ((Object.fresh.setParam "myInt" (Variant.ofInt 5)).1 = Except.ok ()
      ∧ ((Object.fresh.setParam "myInt" (Variant.ofInt 5)).2.getParam "myInt").1.bind
          Variant.toInt = Except.ok 5)
    ∧ ((Object.fresh.setParam "myString" (Variant.ofCStr "zero")).1 = Except.ok ()
      ∧ ∃ w, (Object.fresh.setParam "myString" (Variant.ofCStr "zero")).2.getParam "myString"
            = (Except.ok w, (Object.fresh.setParam "myString" (Variant.ofCStr "zero")).2)
          ∧ w._type = (Variant.ofCStr "zero")._type
          ∧ w.toString = Except.ok (Variant.ofCStr "zero")._s
          ∧ (Variant.ofCStr "zero").toString = Except.ok (Variant.ofCStr "zero")._s) :=
  ⟨(Object.setParam_then_getParam Object.fresh (Object.Reachable.init Object.ctor_eq_fresh)
      (Variant.ofInt 5)).2.2.2 5 (by decide) (by decide),
    (Object.setParam_then_getParam Object.fresh (Object.Reachable.init Object.ctor_eq_fresh)
      (Variant.ofCStr "zero")).2.2.1 rfl (by decide)⟩

/-! Section: the fields of `Object` under `setParam` and `zero` -/

/-- An import whose conversion yields `x`, with `x` rejected by the validator,
throws the validation error and leaves the field as it was. -/
theorem Param.setFromVariant_rejected {T : Type} [VariantValue T] (p : Param T) (v : Variant)
    (x : T) (hc : (VariantValue.convert v : Except Failure T) = Except.ok x)
    (hv : p._validator x = false) :
    p.setFromVariant v = (Except.error (Failure.range_error "Value not valid!"), p) := by
  unfold Param.setFromVariant
  rw [hc]
  simp [Param.assign, hv]

/-- An import that throws, whatever the exception, leaves the field as it was. -/
theorem Param.setFromVariant_error {T : Type} [VariantValue T] (p : Param T) (v : Variant)
    (e : Failure) (h : (p.setFromVariant v).1 = Except.error e) :
    (p.setFromVariant v).2 = p := by
  rw [Param.setFromVariant_state]
  cases hc : (VariantValue.convert v : Except Failure T) with
  | error e2 => rfl
  | ok x =>
    cases hv : p._validator x with
    | false => simp [Param.assign, hv]
    | true =>
      rw [Param.setFromVariant_ok p v x hc hv] at h
      cases h

/-- With the declared registry, `setParam` under each of the three names is
the import into the member of that name, the rest of the object being copied. -/
theorem Object.Declared.setParam {o : Object} (h : o.Declared) (v : Variant) :
    o.setParam "myInt" v
        = ((o.i.setFromVariant v).1, { o with i := (o.i.setFromVariant v).2 })
    ∧ o.setParam "myDouble" v
        = ((o.d.setFromVariant v).1, { o with d := (o.d.setFromVariant v).2 })
    ∧ o.setParam "myString" v
        = ((o.s.setFromVariant v).1, { o with s := (o.s.setFromVariant v).2 }) := by
  obtain ⟨hi, hd, hs, _⟩ := h.find
  refine ⟨?_, ?_, ?_⟩
  · unfold Object.setParam; rw [hi]; rfl
  · unfold Object.setParam; rw [hd]; rfl
  · unfold Object.setParam; rw [hs]; rfl

/-- The range validator of `myInt` accepts exactly the ints from -10 to 10. -/
theorem checkMinMax_int (n : Int) :
    checkMinMax (-10 : Int) 10 n = true ↔ (-10 ≤ n ∧ n ≤ 10) := by
  simp [checkMinMax]

/-- C11: in every reachable state of the program's `Object`, for every
STRING-tagged `Variant` `v` (its text being `v._s`), `setParam("myString", v)`
returns exactly when the text has at most 20 characters, and then myString holds
the text; when the text is longer it throws `range_error("Value not valid!")`
and the object, myString included, is as it was. -/
theorem Object.setParam_myString_length (o : Object) (h : o.Reachable) (v : Variant)
    (hv : v._type = Variant.type.STRING) :
    ((o.setParam "myString" v).1 = Except.ok () ↔ v._s.length ≤ 20)
    ∧ (v._s.length ≤ 20 → (o.setParam "myString" v).2.s.getValue = v._s)
    ∧ (20 < v._s.length →
        o.setParam "myString" v
          = (Except.error (Failure.range_error "Value not valid!"), o)
        ∧ (o.setParam "myString" v).2.s.getValue = o.s.getValue) := by
  have hd := h.declared
  have hconv : (VariantValue.convert v : Except Failure String) = Except.ok v._s := by
    simp [VariantValue.convert, Variant.toString, hv]
  rw [(hd.setParam v).2.2]
  by_cases hlen : v._s.length ≤ 20
  · have hval : o.s._validator v._s = true := by
      rw [hd.s_validator]; simp [hlen]
    rw [Param.setFromVariant_ok o.s v v._s hconv hval]
    refine ⟨⟨fun _ => hlen, fun _ => rfl⟩, fun _ => rfl, fun hgt => ?_⟩
    omega
  · have hval : o.s._validator v._s = false := by
      rw [hd.s_validator]; simp [hlen]
    rw [Param.setFromVariant_rejected o.s v v._s hconv hval]
    refine ⟨⟨fun hok => ?_, fun hle => absurd hle hlen⟩, fun hle => absurd hle hlen,
      fun _ => ⟨rfl, rfl⟩⟩
    cases hok

/-- C11, on the object `Object()` builds: the 21-character literal of `main` is
rejected and myString still reads "string"; a 20-character text and the empty
text are accepted. -/
theorem Object.setParam_myString_length_witness :
    (Object.fresh.setParam "myString" (Variant.ofCStr "012345678901234567890")
        = (Except.error (Failure.range_error "Value not valid!"), Object.fresh)
      ∧ (Object.fresh.setParam "myString"
          (Variant.ofCStr "012345678901234567890")).2.s.getValue = Object.fresh.s.getValue)
    ∧ (Object.fresh.setParam "myString" (Variant.ofCStr "01234567890123456789")).1
        = Except.ok ()
    ∧ (Object.fresh.setParam "myString" (Variant.ofString "")).1 = Except.ok () :=
  ⟨(Object.setParam_myString_length Object.fresh (Object.Reachable.init Object.ctor_eq_fresh)
      (Variant.ofCStr "012345678901234567890") rfl).2.2 (by decide),
    (Object.setParam_myString_length Object.fresh (Object.Reachable.init Object.ctor_eq_fresh)
      (Variant.ofCStr "01234567890123456789") rfl).1.2 (by decide),
    (Object.setParam_myString_length Object.fresh (Object.Reachable.init Object.ctor_eq_fresh)
      (Variant.ofString "") rfl).1.2 (by decide)⟩

/-- C12: the validator `checkMinMax(min, max)` accepts `v` exactly when
`min <= v` and `v <= max`, both bounds included (for ints and, with the IEEE
comparison, for doubles).  So in every reachable state of the program's
`Object`, for every int `n`, `setParam("myInt", n)` returns exactly when
-10 <= n <= 10, and then myInt holds `n`; otherwise it throws
`range_error("Value not valid!")` and the object, myInt included, is as it
was. -/
theorem Object.setParam_myInt_range (o : Object) (h : o.Reachable) (n : Int) :
    (∀ (min max v : Int), checkMinMax min max v = true ↔ (min ≤ v ∧ v ≤ max))
    ∧ (∀ (min max v : Double), checkMinMax min max v = true
        ↔ (Double.le min v = true ∧ Double.le v max = true))
    ∧ ((o.setParam "myInt" (Variant.ofInt n)).1 = Except.ok () ↔ (-10 ≤ n ∧ n ≤ 10))
    ∧ ((-10 ≤ n ∧ n ≤ 10) → (o.setParam "myInt" (Variant.ofInt n)).2.i.getValue = n)
    ∧ (¬ (-10 ≤ n ∧ n ≤ 10) →
        o.setParam "myInt" (Variant.ofInt n)
          = (Except.error (Failure.range_error "Value not valid!"), o)
        ∧ (o.setParam "myInt" (Variant.ofInt n)).2.i.getValue = o.i.getValue) := by
  have hd := h.declared
  have hconv : (VariantValue.convert (Variant.ofInt n) : Except Failure Int) = Except.ok n :=
    convert_ofValue Variant.type.INT n
  refine ⟨fun min max v => by simp [checkMinMax], fun min max v => ?_, ?_⟩
  · simp only [checkMinMax, Bool.and_eq_true, decide_eq_true_eq]
    exact Iff.rfl
  rw [(hd.setParam (Variant.ofInt n)).1]
  by_cases hr : -10 ≤ n ∧ n ≤ 10
  · have hval : o.i._validator n = true := by
      rw [hd.i_validator]; exact (checkMinMax_int n).2 hr
    rw [Param.setFromVariant_ok o.i (Variant.ofInt n) n hconv hval]
    exact ⟨⟨fun _ => hr, fun _ => rfl⟩, fun _ => rfl, fun hn => absurd hr hn⟩
  · have hval : o.i._validator n = false := by
      rw [hd.i_validator]
      cases hc : checkMinMax (-10 : Int) 10 n with
      | false => rfl
      | true => exact absurd ((checkMinMax_int n).1 hc) hr
    rw [Param.setFromVariant_rejected o.i (Variant.ofInt n) n hconv hval]
    refine ⟨⟨fun hok => ?_, fun hin => absurd hin hr⟩, fun hin => absurd hin hr,
      fun _ => ⟨rfl, rfl⟩⟩
    cases hok

/-- C12, on the object `Object()` builds: -10 and 10 are accepted, -11 and 11 are
rejected with the validation error and the object unchanged. -/
theorem Object.setParam_myInt_range_witness :
    (Object.fresh.setParam "myInt" (Variant.ofInt (-10))).1 = Except.ok ()
    ∧ (Object.fresh.setParam "myInt" (Variant.ofInt 10)).1 = Except.ok ()
    ∧ (Object.fresh.setParam "myInt" (Variant.ofInt 10)).2.i.getValue = 10
    ∧ (Object.fresh.setParam "myInt" (Variant.ofInt (-11))
        = (Except.error (Failure.range_error "Value not valid!"), Object.fresh)
      ∧ (Object.fresh.setParam "myInt" (Variant.ofInt (-11))).2.i.getValue
        = Object.fresh.i.getValue)
    ∧ (Object.fresh.setParam "myInt" (Variant.ofInt 11)
        = (Except.error (Failure.range_error "Value not valid!"), Object.fresh)
      ∧ (Object.fresh.setParam "myInt" (Variant.ofInt 11)).2.i.getValue
        = Object.fresh.i.getValue) :=
  ⟨(Object.setParam_myInt_range Object.fresh (Object.Reachable.init Object.ctor_eq_fresh)
      (-10)).2.2.1.2 (by decide),
    (Object.setParam_myInt_range Object.fresh (Object.Reachable.init Object.ctor_eq_fresh)
      10).2.2.1.2 (by decide),
    (Object.setParam_myInt_range Object.fresh (Object.Reachable.init Object.ctor_eq_fresh)
      10).2.2.2.1 (by decide),
    (Object.setParam_myInt_range Object.fresh (Object.Reachable.init Object.ctor_eq_fresh)
      (-11)).2.2.2.2 (by decide),
    (Object.setParam_myInt_range Object.fresh (Object.Reachable.init Object.ctor_eq_fresh)
      11).2.2.2.2 (by decide)⟩

/-- With the declared registry, `getParam` under each of the three names returns
the export of the member of that name and leaves the object as it was. -/
theorem Object.Declared.getParam {o : Object} (h : o.Declared) :
    o.getParam "myInt" = (Except.ok (Variant.ofInt o.i.getValue), o)
    ∧ o.getParam "myDouble" = (Except.ok (Variant.ofDouble o.d.getValue), o)
    ∧ o.getParam "myString" = (Except.ok (Variant.ofString o.s.getValue), o) := by
  obtain ⟨hi, hd, hs, _⟩ := h.find
  refine ⟨?_, ?_, ?_⟩
  · unfold Object.getParam; rw [hi]; rfl
  · unfold Object.getParam; rw [hd]; rfl
  · unfold Object.getParam; rw [hs]; rfl

/-- With the declared validators, `zero()` returns and stores 0, 0.0 and "zero". -/
theorem Object.Declared.zero_eq {o : Object} (h : o.Declared) :
    o.zero = (Except.ok (),
      { o with
        i := { o.i with _value := 0 }
        d := { o.d with _value := Double.zero }
        s := { o.s with _value := "zero" } }) := by
  have hi : o.i._validator 0 = true := by rw [h.i_validator]; decide
  have hd : o.d._validator Double.zero = true := by rw [h.d_validator]; decide
  have hs : o.s._validator "zero" = true := by rw [h.s_validator]; decide
  simp [Object.zero, Param.assign, hi, hd, hs]

/-- C13: from every reachable state of the program's `Object`, `zero()` returns
without throwing; afterwards the typed getters read 0, 0.0 and "zero", and
`getParam` under the three names returns the INT 0, the DOUBLE 0.0 and the
STRING "zero"; the three members after the call are the post-states of the
validating assignments `i = 0`, `d = 0.0` and `s = "zero"`, and each of these
values is accepted by the validator of its field. -/
theorem Object.zero_resets (o : Object) (h : o.Reachable) :
    o.zero.1 = Except.ok ()
    ∧ (o.zero.2.i.getValue = 0 ∧ o.zero.2.d.getValue = Double.zero
        ∧ o.zero.2.s.getValue = "zero")
    ∧ (o.zero.2.getParam "myInt" = (Except.ok (Variant.ofInt 0), o.zero.2)
        ∧ o.zero.2.getParam "myDouble" = (Except.ok (Variant.ofDouble Double.zero), o.zero.2)
        ∧ o.zero.2.getParam "myString" = (Except.ok (Variant.ofString "zero"), o.zero.2))
    ∧ (o.zero.2.i = (o.i.assign 0).2 ∧ o.zero.2.d = (o.d.assign Double.zero).2
        ∧ o.zero.2.s = (o.s.assign "zero").2)
    ∧ (o.i._validator 0 = true ∧ o.d._validator Double.zero = true
        ∧ o.s._validator "zero" = true) := by
  have hd := h.declared
  have hi : o.i._validator 0 = true := by rw [hd.i_validator]; decide
  have hdv : o.d._validator Double.zero = true := by rw [hd.d_validator]; decide
  have hs : o.s._validator "zero" = true := by rw [hd.s_validator]; decide
  have hz := hd.zero_eq
  have hget := hd.zero.getParam
  have e1 : o.zero.2.i.getValue = 0 := by rw [hz]; rfl
  have e2 : o.zero.2.d.getValue = Double.zero := by rw [hz]; rfl
  have e3 : o.zero.2.s.getValue = "zero" := by rw [hz]; rfl
  rw [e1, e2, e3] at hget
  refine ⟨by rw [hz], ⟨e1, e2, e3⟩, hget, ⟨?_, ?_, ?_⟩, ⟨hi, hdv, hs⟩⟩
  · rw [hz]; simp [Param.assign, hi]
  · rw [hz]; simp [Param.assign, hdv]
  · rw [hz]; simp [Param.assign, hs]

/-- C13, in the state `main` calls `zero()` in (after `setParam("myInt", 5)` and
the two rejected `setParam`s): the call returns and the three reads give 0, 0.0
and "zero". -/
theorem Object.zero_resets_witness :
    ((((Object.fresh.step (Object.Call.setParam "myInt" (Variant.ofInt 5))).step
        (Object.Call.setParam "myString" (Variant.ofCStr "012345678901234567890"))).step
        (Object.Call.setParam "myDouble" (Variant.ofCStr "123"))).zero).1 = Except.ok ()
    ∧ ((((Object.fresh.step (Object.Call.setParam "myInt" (Variant.ofInt 5))).step
        (Object.Call.setParam "myString" (Variant.ofCStr "012345678901234567890"))).step
        (Object.Call.setParam "myDouble" (Variant.ofCStr "123"))).zero).2.i.getValue = 0
    ∧ ((((Object.fresh.step (Object.Call.setParam "myInt" (Variant.ofInt 5))).step
        (Object.Call.setParam "myString" (Variant.ofCStr "012345678901234567890"))).step
        (Object.Call.setParam "myDouble" (Variant.ofCStr "123"))).zero).2.d.getValue
        = Double.zero
    ∧ ((((Object.fresh.step (Object.Call.setParam "myInt" (Variant.ofInt 5))).step
        (Object.Call.setParam "myString" (Variant.ofCStr "012345678901234567890"))).step
        (Object.Call.setParam "myDouble" (Variant.ofCStr "123"))).zero).2.s.getValue
        = "zero" :=
  ⟨(Object.zero_resets _ (Object.Reachable.step _ (Object.Reachable.step _
      (Object.Reachable.step _ (Object.Reachable.init Object.ctor_eq_fresh))))).1,
    (Object.zero_resets _ (Object.Reachable.step _ (Object.Reachable.step _
      (Object.Reachable.step _ (Object.Reachable.init Object.ctor_eq_fresh))))).2.1.1,
    (Object.zero_resets _ (Object.Reachable.step _ (Object.Reachable.step _
      (Object.Reachable.step _ (Object.Reachable.init Object.ctor_eq_fresh))))).2.1.2.1,
    (Object.zero_resets _ (Object.Reachable.step _ (Object.Reachable.step _
      (Object.Reachable.step _ (Object.Reachable.init Object.ctor_eq_fresh))))).2.1.2.2⟩

/-- C14: for a `Param<T>` of each of the three kinds, in any state, and every
value `v` of type `T`, `setFromVariant(Variant(v))` and the typed assignment of
`v` leave the field in the same state, return on exactly the same `v`, throw on
exactly the same `v` and then throw the same exception, which can only be
`range_error("Value not valid!")`: the import of a matching `Variant` never
throws a mismatch error. -/
theorem Param.setFromVariant_refines_assign (k : Variant.type) (p : Param k.T) (v : k.T) :
    (p.setFromVariant (VariantValue.ofValue v)).2 = (p.assign v).2
    ∧ ((p.setFromVariant (VariantValue.ofValue v)).1 = Except.ok ()
        ↔ (p.assign v).1 = Except.ok v)
    ∧ (∀ e : Failure, (p.setFromVariant (VariantValue.ofValue v)).1 = Except.error e
        ↔ (p.assign v).1 = Except.error e)
    ∧ (∀ e : Failure, (p.assign v).1 = Except.error e
        → e = Failure.range_error "Value not valid!")
    ∧ ((p.assign v).1 = Except.ok v ↔ p._validator v = true) := by
  have hc : (VariantValue.convert (VariantValue.ofValue v : Variant) : Except Failure k.T)
      = Except.ok v := convert_ofValue k v
  cases hv : p._validator v with
  | true =>
    rw [Param.setFromVariant_ok p _ v hc hv]
    have ha : p.assign v = (Except.ok v, { p with _value := v }) := by
      simp [Param.assign, hv]
    rw [ha]
    simp
  | false =>
    rw [Param.setFromVariant_rejected p _ v hc hv]
    have ha : p.assign v = (Except.error (Failure.range_error "Value not valid!"), p) := by
      simp [Param.assign, hv]
    rw [ha]
    simp

/-- C15: after `w = y`, whatever `w` held, `w` converts exactly as the freshly
constructed `Variant(y)` does: to the type of `y` it gives `y`, and to each of
the two other types it throws that type's mismatch error.  The members the
assignment does not write keep their old content (a string assigned an int
still stores its text in `_s`), but no conversion can reach it. -/
theorem Variant.assign_like_constructed (w : Variant) (i : Int) (d : Double) (s : String) :
    ((w.assignInt i).toInt = Except.ok i
      ∧ (w.assignInt i).toDouble = Except.error (Failure.runtime_error "Not a double")
      ∧ (w.assignInt i).toString = Except.error (Failure.runtime_error "Not a string")
      ∧ (w.assignInt i).toInt = (Variant.ofInt i).toInt
      ∧ (w.assignInt i).toDouble = (Variant.ofInt i).toDouble
      ∧ (w.assignInt i).toString = (Variant.ofInt i).toString
      ∧ (w.assignInt i)._type = (Variant.ofInt i)._type)
    ∧ ((w.assignDouble d).toInt = Except.error (Failure.runtime_error "Not an int")
      ∧ (w.assignDouble d).toDouble = Except.ok d
      ∧ (w.assignDouble d).toString = Except.error (Failure.runtime_error "Not a string")
      ∧ (w.assignDouble d).toInt = (Variant.ofDouble d).toInt
      ∧ (w.assignDouble d).toDouble = (Variant.ofDouble d).toDouble
      ∧ (w.assignDouble d).toString = (Variant.ofDouble d).toString
      ∧ (w.assignDouble d)._type = (Variant.ofDouble d)._type)
    ∧ ((w.assignString s).toInt = Except.error (Failure.runtime_error "Not an int")
      ∧ (w.assignString s).toDouble = Except.error (Failure.runtime_error "Not a double")
      ∧ (w.assignString s).toString = Except.ok s
      ∧ (w.assignString s).toInt = (Variant.ofString s).toInt
      ∧ (w.assignString s).toDouble = (Variant.ofString s).toDouble
      ∧ (w.assignString s).toString = (Variant.ofString s).toString
      ∧ (w.assignString s)._type = (Variant.ofString s)._type)
    ∧ (((Variant.ofString "text").assignInt 7)._s = "text"
      ∧ ((Variant.ofString "text").assignInt 7).toString
          = Except.error (Failure.runtime_error "Not a string")
      ∧ ((Variant.ofString "text").assignInt 7).toInt = Except.ok 7) := by
  simp [Variant.toInt, Variant.toDouble, Variant.toString, Variant.ofInt, Variant.ofDouble,
    Variant.ofString, Variant.assignInt, Variant.assignDouble, Variant.assignString]

/-- No call writes the map. -/
theorem Object.step_params (o : Object) (c : Object.Call) : (o.step c).params = o.params := by
  cases c with
  | setParam name value =>
    show (o.setParam name value).2.params = o.params
    unfold Object.setParam
    cases o.params.find name with
    | none => rfl
    | some m => cases m <;> rfl
  | getParam name =>
    show (o.getParam name).2.params = o.params
    unfold Object.getParam
    cases o.params.find name <;> rfl
  | zero => exact (Object.zero_state o).1

/-- No sequence of calls writes the map. -/
theorem Object.foldl_step_params (calls : List Object.Call) :
    ∀ o : Object, (calls.foldl Object.step o).params = o.params := by
  induction calls with
  | nil => intro o; rfl
  | cons c rest ih =>
    intro o
    rw [List.foldl_cons, ih (o.step c), Object.step_params]

/-- C16: right after construction the map has exactly three entries, which bind
"myInt", "myDouble" and "myString" to the members `i`, `d` and `s`, whose names
are these and whose values are 0, 0.0 and "string".  No sequence of `setParam`,
`getParam` and `zero` calls, returning or throwing, changes the map, from any
state; so in every reachable state the map still holds these three entries and
the members still bear these names. -/
theorem Object.registry_fixed :
    (∃ o : Object, Object.ctor = Except.ok o
        ∧ o.params.length = 3
        ∧ (o.params.find "myInt" = some Object.Member.i
          ∧ o.params.find "myDouble" = some Object.Member.d
          ∧ o.params.find "myString" = some Object.Member.s)
        ∧ (o.getName Object.Member.i = "myInt" ∧ o.getName Object.Member.d = "myDouble"
          ∧ o.getName Object.Member.s = "myString")
        ∧ (o.i.getValue = 0 ∧ o.d.getValue = Double.zero ∧ o.s.getValue = "string"))
    ∧ (∀ (o : Object) (calls : List Object.Call),
        (calls.foldl Object.step o).params = o.params)
    ∧ (∀ o : Object, o.Reachable →
        o.params
            = [("myDouble", Object.Member.d), ("myInt", Object.Member.i),
                ("myString", Object.Member.s)]
        ∧ (o.getName Object.Member.i = "myInt" ∧ o.getName Object.Member.d = "myDouble"
          ∧ o.getName Object.Member.s = "myString")) := by
  refine ⟨⟨Object.fresh, Object.ctor_eq_fresh, by decide, ⟨by decide, by decide, by decide⟩,
    ⟨rfl, rfl, rfl⟩, ⟨rfl, rfl, rfl⟩⟩, fun o calls => Object.foldl_step_params calls o, ?_⟩
  intro o hr
  have hd := hr.declared
  exact ⟨hd.params, hd.i_name, hd.d_name, hd.s_name⟩

/-- C16, after the calls of `main` and one with an unregistered name: the map is
the one construction left. -/
theorem Object.registry_fixed_witness :
    ([Object.Call.setParam "myInt" (Variant.ofInt 5), Object.Call.getParam "myInt",
        Object.Call.setParam "myString" (Variant.ofCStr "012345678901234567890"),
        Object.Call.setParam "other" (Variant.ofInt 1), Object.Call.zero].foldl
          Object.step Object.fresh).params = Object.fresh.params
    ∧ (Object.fresh.step Object.Call.zero).params
        = [("myDouble", Object.Member.d), ("myInt", Object.Member.i),
            ("myString", Object.Member.s)] :=
  ⟨Object.registry_fixed.2.1 Object.fresh _,
    (Object.registry_fixed.2.2 _
      (Object.Reachable.step Object.Call.zero (Object.Reachable.init Object.ctor_eq_fresh))).1⟩

/-- An import leaves a field holding a value its validator accepts when it held
one. -/
theorem Param.setFromVariant_accepted {T : Type} [VariantValue T] (p : Param T) (v : Variant)
    (h : p._validator p._value = true) :
    (p.setFromVariant v).2._validator (p.setFromVariant v).2._value = true :=
  (Param.step_keeps p (Param.Call.setFromVariant v)).2 h

/-- A typed assignment leaves a field holding a value its validator accepts when
it held one. -/
theorem Param.assign_accepted {T : Type} [VariantValue T] (p : Param T) (x : T)
    (h : p._validator p._value = true) :
    (p.assign x).2._validator (p.assign x).2._value = true :=
  (Param.step_keeps p (Param.Call.assign x)).2 h

/-- In every reachable state each of the three fields holds a value that its
validator accepts. -/
theorem Object.Reachable.accepted {o : Object} (h : o.Reachable) :
    o.i._validator o.i._value = true ∧ o.d._validator o.d._value = true
    ∧ o.s._validator o.s._value = true := by
  induction h with
  | init hc =>
    rw [Object.ctor_eq_fresh] at hc
    cases hc
    exact ⟨by decide, by decide, by decide⟩
  | @step o c _ ih =>
    obtain ⟨hi, hd, hs⟩ := ih
    cases c with
    | setParam name value =>
      show (o.setParam name value).2.i._validator (o.setParam name value).2.i._value = true
        ∧ (o.setParam name value).2.d._validator (o.setParam name value).2.d._value = true
        ∧ (o.setParam name value).2.s._validator (o.setParam name value).2.s._value = true
      unfold Object.setParam
      cases o.params.find name with
      | none => exact ⟨hi, hd, hs⟩
      | some m =>
        cases m
        · exact ⟨Param.setFromVariant_accepted o.i value hi, hd, hs⟩
        · exact ⟨hi, Param.setFromVariant_accepted o.d value hd, hs⟩
        · exact ⟨hi, hd, Param.setFromVariant_accepted o.s value hs⟩
    | getParam name =>
      show (o.getParam name).2.i._validator (o.getParam name).2.i._value = true
        ∧ (o.getParam name).2.d._validator (o.getParam name).2.d._value = true
        ∧ (o.getParam name).2.s._validator (o.getParam name).2.s._value = true
      unfold Object.getParam
      cases o.params.find name <;> exact ⟨hi, hd, hs⟩
    | zero =>
      show o.zero.2.i._validator o.zero.2.i._value = true
        ∧ o.zero.2.d._validator o.zero.2.d._value = true
        ∧ o.zero.2.s._validator o.zero.2.s._value = true
      obtain ⟨_, zi, zd, zs⟩ := Object.zero_state o
      refine ⟨?_, ?_, ?_⟩
      · rw [zi]; exact Param.assign_accepted o.i 0 hi
      · rcases zd with zd | zd <;> rw [zd]
        · exact hd
        · exact Param.assign_accepted o.d Double.zero hd
      · rcases zs with zs | zs <;> rw [zs]
        · exact hs
        · exact Param.assign_accepted o.s "zero" hs

/-- C17: in every state of the program's `Object` reachable from construction
by `setParam`, `getParam` and `zero` calls, returning or throwing, myInt is
between -10 and 10, myDouble is between -10.0 and 10.0 for the IEEE comparison
(so it is not a NaN), and myString has at most 20 characters. -/
theorem Object.fields_in_bounds (o : Object) (h : o.Reachable) :
    (-10 ≤ o.i.getValue ∧ o.i.getValue ≤ 10)
    ∧ (Double.negTen ≤ o.d.getValue ∧ o.d.getValue ≤ Double.ten
        ∧ o.d.getValue.isNaN = false)
    ∧ o.s.getValue.length ≤ 20 := by
  have hd := h.declared
  obtain ⟨hi, hdv, hs⟩ := h.accepted
  rw [hd.i_validator] at hi
  rw [hd.d_validator] at hdv
  rw [hd.s_validator] at hs
  refine ⟨(checkMinMax_int _).1 hi, ?_, by simpa using hs⟩
  simp only [checkMinMax, Bool.and_eq_true, decide_eq_true_eq] at hdv
  refine ⟨hdv.1, hdv.2, ?_⟩
  have h2 : Double.le o.d._value Double.ten = true := hdv.2
  simp only [Double.le, Bool.and_eq_true, Bool.not_eq_true'] at h2
  exact h2.1.1

/-- The states a sequence of calls leads to from a reachable state are
reachable. -/
theorem Object.Reachable.foldl (calls : List Object.Call) :
    ∀ {o : Object}, o.Reachable → (calls.foldl Object.step o).Reachable := by
  induction calls with
  | nil => intro o h; exact h
  | cons c rest ih => intro o h; exact ih (Object.Reachable.step c h)

/-- C17, in the state reached by accepted writes of 10, -10.0 and a 20-character
text followed by rejected writes of 11 and of a 21-character text. -/
theorem Object.fields_in_bounds_witness :
    (-10 ≤ ([Object.Call.setParam "myInt" (Variant.ofInt 10),
          Object.Call.setParam "myDouble" (Variant.ofDouble Double.negTen),
          Object.Call.setParam "myString" (Variant.ofCStr "01234567890123456789"),
          Object.Call.setParam "myInt" (Variant.ofInt 11),
          Object.Call.setParam "myString" (Variant.ofCStr "012345678901234567890")].foldl
            Object.step Object.fresh).i.getValue
      ∧ ([Object.Call.setParam "myInt" (Variant.ofInt 10),
          Object.Call.setParam "myDouble" (Variant.ofDouble Double.negTen),
          Object.Call.setParam "myString" (Variant.ofCStr "01234567890123456789"),
          Object.Call.setParam "myInt" (Variant.ofInt 11),
          Object.Call.setParam "myString" (Variant.ofCStr "012345678901234567890")].foldl
            Object.step Object.fresh).i.getValue ≤ 10)
    ∧ ([Object.Call.setParam "myInt" (Variant.ofInt 10),
          Object.Call.setParam "myDouble" (Variant.ofDouble Double.negTen),
          Object.Call.setParam "myString" (Variant.ofCStr "01234567890123456789"),
          Object.Call.setParam "myInt" (Variant.ofInt 11),
          Object.Call.setParam "myString" (Variant.ofCStr "012345678901234567890")].foldl
            Object.step Object.fresh).s.getValue.length ≤ 20 :=
  ⟨(Object.fields_in_bounds _
      (Object.Reachable.foldl _ (Object.Reachable.init Object.ctor_eq_fresh))).1,
    (Object.fields_in_bounds _
      (Object.Reachable.foldl _ (Object.Reachable.init Object.ctor_eq_fresh))).2.2⟩

/-- C18: in every reachable state of the program's `Object`, for each of the
three registered names and every `Variant` `v`, `setParam(name, v)`, returning
or throwing, leaves the two members of the other names (hence their values)
and the map exactly as they were; and when it throws, whatever the exception,
the member of that name is as it was too, so that the whole object is
unchanged. -/
theorem Object.setParam_frame (o : Object) (h : o.Reachable) (v : Variant) :
    ((o.setParam "myInt" v).2.d = o.d ∧ (o.setParam "myInt" v).2.s = o.s
      ∧ (o.setParam "myInt" v).2.d.getValue = o.d.getValue
      ∧ (o.setParam "myInt" v).2.s.getValue = o.s.getValue
      ∧ (o.setParam "myInt" v).2.params = o.params
      ∧ ∀ e : Failure, (o.setParam "myInt" v).1 = Except.error e →
          (o.setParam "myInt" v).2.i.getValue = o.i.getValue ∧ (o.setParam "myInt" v).2 = o)
    ∧ ((o.setParam "myDouble" v).2.i = o.i ∧ (o.setParam "myDouble" v).2.s = o.s
      ∧ (o.setParam "myDouble" v).2.i.getValue = o.i.getValue
      ∧ (o.setParam "myDouble" v).2.s.getValue = o.s.getValue
      ∧ (o.setParam "myDouble" v).2.params = o.params
      ∧ ∀ e : Failure, (o.setParam "myDouble" v).1 = Except.error e →
          (o.setParam "myDouble" v).2.d.getValue = o.d.getValue
          ∧ (o.setParam "myDouble" v).2 = o)
    ∧ ((o.setParam "myString" v).2.i = o.i ∧ (o.setParam "myString" v).2.d = o.d
      ∧ (o.setParam "myString" v).2.i.getValue = o.i.getValue
      ∧ (o.setParam "myString" v).2.d.getValue = o.d.getValue
      ∧ (o.setParam "myString" v).2.params = o.params
      ∧ ∀ e : Failure, (o.setParam "myString" v).1 = Except.error e →
          (o.setParam "myString" v).2.s.getValue = o.s.getValue
          ∧ (o.setParam "myString" v).2 = o) := by
  obtain ⟨hi, hd, hs⟩ := h.declared.setParam v
  refine ⟨?_, ?_, ?_⟩
  · rw [hi]
    refine ⟨rfl, rfl, rfl, rfl, rfl, fun e he => ?_⟩
    have hu : (o.i.setFromVariant v).2 = o.i := Param.setFromVariant_error o.i v e he
    exact ⟨congrArg Param.getValue hu, by show ({ o with i := _ } : Object) = o; rw [hu]⟩
  · rw [hd]
    refine ⟨rfl, rfl, rfl, rfl, rfl, fun e he => ?_⟩
    have hu : (o.d.setFromVariant v).2 = o.d := Param.setFromVariant_error o.d v e he
    exact ⟨congrArg Param.getValue hu, by show ({ o with d := _ } : Object) = o; rw [hu]⟩
  · rw [hs]
    refine ⟨rfl, rfl, rfl, rfl, rfl, fun e he => ?_⟩
    have hu : (o.s.setFromVariant v).2 = o.s := Param.setFromVariant_error o.s v e he
    exact ⟨congrArg Param.getValue hu, by show ({ o with s := _ } : Object) = o; rw [hu]⟩

/-- C18, in the state reached by `setParam("myInt", 5)`: writing "zero" to
myString leaves myInt at 5 and myDouble at 0.0, and the rejected write of the
text "123" to myDouble leaves the whole object as it was. -/
theorem Object.setParam_frame_witness :
    (((Object.fresh.step (Object.Call.setParam "myInt" (Variant.ofInt 5))).setParam
          "myString" (Variant.ofCStr "zero")).2.i.getValue
        = (Object.fresh.step (Object.Call.setParam "myInt" (Variant.ofInt 5))).i.getValue
      ∧ (Object.fresh.step (Object.Call.setParam "myInt" (Variant.ofInt 5))).i.getValue = 5)
    ∧ ((Object.fresh.step (Object.Call.setParam "myInt" (Variant.ofInt 5))).setParam
          "myString" (Variant.ofCStr "zero")).2.d.getValue
        = (Object.fresh.step (Object.Call.setParam "myInt" (Variant.ofInt 5))).d.getValue
    ∧ ((Object.fresh.step (Object.Call.setParam "myInt" (Variant.ofInt 5))).setParam
          "myDouble" (Variant.ofCStr "123")).2
        = Object.fresh.step (Object.Call.setParam "myInt" (Variant.ofInt 5)) :=
  ⟨⟨(Object.setParam_frame _
        (Object.Reachable.step (Object.Call.setParam "myInt" (Variant.ofInt 5))
          (Object.Reachable.init Object.ctor_eq_fresh)) (Variant.ofCStr "zero")).2.2.2.2.1,
      by decide⟩,
    (Object.setParam_frame _
      (Object.Reachable.step (Object.Call.setParam "myInt" (Variant.ofInt 5))
        (Object.Reachable.init Object.ctor_eq_fresh)) (Variant.ofCStr "zero")).2.2.2.2.2.1,
    ((Object.setParam_frame _
      (Object.Reachable.step (Object.Call.setParam "myInt" (Variant.ofInt 5))
        (Object.Reachable.init Object.ctor_eq_fresh)) (Variant.ofCStr "123")).2.1.2.2.2.2.2
      (Failure.runtime_error "Not a double") rfl).2⟩

end ParamTest
